import Mathlib

/-!
# EventLogs — render, normalise, enumerate, query, subscribe

A shallow embedding of `BLUESPAWN-client/src/util/eventlogs/EventLogs.cpp`.

The native log service (the `Evt*` functions, `HeapAlloc`) is not part of the
program; it is a parameter of every definition (`LogService`), so each theorem
holds for every behaviour of the service.  Side effects that the properties
talk about (handle releases, log lines, the native calls that open a query, a
subscription or fetch a batch) are collected in an explicit trace of `Effect`s,
in program order.  A C++ exception leaving a function is the `Except.error`
result.  Heap memory of the render buffers is not traced.
-/

namespace EventLogs

/-! ## Constants -/

/-- The source constant `const int ARRAY_SIZE = 10;`. -/
def ARRAY_SIZE : Nat := 10

/-- A native handle value; `NULL` is `0`. -/
abbrev EVT_HANDLE := Nat

/-- The null handle. -/
def NULL : EVT_HANDLE := 0

/-- Win32 error code `ERROR_INSUFFICIENT_BUFFER`. -/
def ERROR_INSUFFICIENT_BUFFER : Nat := 122
/-- Win32 error code `ERROR_NO_MORE_ITEMS`. -/
def ERROR_NO_MORE_ITEMS : Nat := 259
/-- Win32 error code `ERROR_EVT_INVALID_QUERY`. -/
def ERROR_EVT_INVALID_QUERY : Nat := 15001
/-- Win32 error code `ERROR_EVT_CHANNEL_NOT_FOUND`. -/
def ERROR_EVT_CHANNEL_NOT_FOUND : Nat := 15007

/-- Value of `EvtQueryChannelPath`. -/
def EvtQueryChannelPath : Nat := 1
/-- Value of `EvtQueryReverseDirection`. -/
def EvtQueryReverseDirection : Nat := 512
/-- Value of `EvtSubscribeToFutureEvents`. -/
def EvtSubscribeToFutureEvents : Nat := 1
/-- Value of `INFINITE`, the fetch timeout. -/
def INFINITE : Nat := 4294967295

/-- Variant kind `EvtVarTypeNull`. -/
def EvtVarTypeNull : Nat := 0
/-- Variant kind `EvtVarTypeString`. -/
def EvtVarTypeString : Nat := 1
/-- Variant kind `EvtVarTypeUInt16`. -/
def EvtVarTypeUInt16 : Nat := 6
/-- Variant kind `EvtVarTypeUInt64`. -/
def EvtVarTypeUInt64 : Nat := 10
/-- Variant kind `EvtVarTypeFileTime`. -/
def EvtVarTypeFileTime : Nat := 17

/-- Largest `unsigned long`: the file builds for Windows only (`DWORD`, `WINAPI`,
the `Evt*` API), where `unsigned long` is 32 bits wide. -/
def ULONG_MAX : Nat := 4294967295

/-! ## Data model -/

/-- The decoded value `EVT_VARIANT`: the numeric members of its union share one
64-bit storage (`bits`), `StringVal` is the string the pointer member refers to,
`type` is the `Type` member. -/
structure EVT_VARIANT where
  bits : Nat
  StringVal : String
  type : Nat
deriving DecidableEq, Repr

/-- Union member `FileTimeVal` (`ULONGLONG`). -/
def EVT_VARIANT.FileTimeVal (v : EVT_VARIANT) : Nat := v.bits % 2 ^ 64
/-- Union member `UInt16Val`. -/
def EVT_VARIANT.UInt16Val (v : EVT_VARIANT) : Nat := v.bits % 2 ^ 16
/-- Union member `UInt64Val`. -/
def EVT_VARIANT.UInt64Val (v : EVT_VARIANT) : Nat := v.bits % 2 ^ 64

/-- Decimal text of an unsigned number: `std::to_wstring`, `std::to_string`,
`_ui64tow(_, _, 10)` and the stream insertion of an unsigned number. -/
def to_wstring (n : Nat) : String := Nat.repr n

/-- Modelled from the spec: the predicate type `XpathQuery` is declared outside
this file; it is consumed opaquely through "is this an exact-value filter"
(`SearchesByValue`) and "serialize to filter-language fragment" (`ToString`). -/
structure XpathQuery where
  SearchesByValue : Bool
  ToString : String
deriving DecidableEq, Repr

/-- Modelled from the spec: the record type `EventLogItem` is declared outside
this file; its fields are those of the structured event record (event ID, record
ID, creation time, channel, raw XML, properties), each filled by the setter of
the same name in `EventToEventLogItem`.  `properties` lists the
`SetProperty(key, value)` calls in call order. -/
structure EventLogItem where
  eventID : Nat
  eventRecordID : Nat
  timeCreated : String
  channel : String
  rawXML : String
  properties : List (String × String)
deriving DecidableEq, Repr

/-- Modelled from the spec: the type `EventSubscription` is declared outside this
file; an entry of the global `subscriptions` vector holds the callback fixed at
creation and the native handle attached afterwards by `setSubHandle`. -/
structure EventSubscription (κ : Type) where
  callback : κ
  hSubscription : EVT_HANDLE
deriving DecidableEq, Repr

/-! ## The native log service -/

/-- Reply of a native call that returns a handle: the handle (`NULL` on failure)
and the value `GetLastError()` reports right after the call. -/
structure HandleReply where
  handle : EVT_HANDLE
  lastError : Nat
deriving DecidableEq, Repr

/-- Reply of one `EvtRender` call: its `BOOL` result, `GetLastError()` right
after it, the number stored through `BufferUsed`, and what the caller's buffer
holds afterwards. -/
structure RenderReply (α : Type) where
  ok : Bool
  lastError : Nat
  BufferUsed : Nat
  content : α

/-- What successive `EvtNext` calls on one result set deliver: the batches of
event handles of the calls that return `TRUE`, then the error code of the first
call that returns `FALSE`. -/
structure ResultSet where
  batches : List (List EVT_HANDLE)
  lastError : Nat
deriving DecidableEq, Repr

/-- Behaviour of the native functions this file calls.
* `EvtCreateRenderContext path` — context for the single value path `path`;
* `EvtRenderValues ctx event BufferSize Buffer` — `EvtRender` with
  `EvtRenderEventValues`; `Buffer` is `none` for `nullptr`, `some n` for a
  buffer of `n` bytes;
* `EvtRenderXml event BufferSize Buffer` — `EvtRender` with `EvtRenderEventXml`;
* `HeapAlloc n` — whether allocating `n` zeroed bytes returns a non-null pointer;
* `EvtQuery channel query flags`;
* `EvtNext hResults` — the fetch behaviour of a result set;
* `EvtClose h` — `none` when the call succeeds, `some e` when it fails and sets
  the last error to `e`;
* `EvtSubscribe path query context flags`. -/
structure LogService where
  EvtCreateRenderContext : String → HandleReply
  EvtRenderValues : EVT_HANDLE → EVT_HANDLE → Nat → Option Nat → RenderReply EVT_VARIANT
  EvtRenderXml : EVT_HANDLE → Nat → Option Nat → RenderReply String
  HeapAlloc : Nat → Bool
  EvtQuery : String → String → Nat → HandleReply
  EvtNext : EVT_HANDLE → ResultSet
  EvtClose : EVT_HANDLE → Option Nat
  EvtSubscribe : String → String → Nat → Nat → HandleReply

/-- Observable effects, in program order. -/
inductive Effect where
  /-- an explicit `EvtClose(h)` call written in this file -/
  | EvtClose (h : EVT_HANDLE)
  /-- a Handle Guard (`EventWrapper`) destructor releasing `h` -/
  | release (h : EVT_HANDLE)
  /-- one `LOG_ERROR` message -/
  | LOG_ERROR (msg : String)
  /-- the native call `EvtQuery(NULL, channel, query, flags)` -/
  | EvtQuery (channel query : String) (flags : Nat)
  /-- the native call `EvtNext(hResults, size, hEvents, timeout, 0, _)` -/
  | EvtNext (hResults : EVT_HANDLE) (size timeout : Nat)
  /-- the native call `EvtSubscribe(NULL, NULL, path, query, NULL, context, _, flags)`;
  `context` is the index of the registry entry whose address is passed -/
  | EvtSubscribe (path query : String) (context flags : Nat)
deriving DecidableEq, Repr

/-- Whether an effect is a native call that opens a query or a subscription. -/
def Effect.isOpen : Effect → Bool
  | .EvtQuery _ _ _ => true
  | .EvtSubscribe _ _ _ _ => true
  | _ => false

/-- Modelled from the spec: the Handle Guard `EventWrapper` is declared outside
this file.  Per its contract it takes ownership of the raw handle it is built
from and "on destruction, releases the underlying resource if valid, otherwise
no-op"; the null handle is the empty state. -/
def EventWrapper.destroy (h : EVT_HANDLE) : List Effect :=
  if h = NULL then [] else [Effect.release h]

/-! ## Parameter Renderer and XML Renderer -/

/-- The variant dispatch at the end of `GetEventParam` (source lines 33–48). -/
def GetEventParam.dispatch (result : EVT_VARIANT) : String :=
  if result.type = EvtVarTypeString then result.StringVal
  else if result.type = EvtVarTypeFileTime then to_wstring result.FileTimeVal
  else if result.type = EvtVarTypeUInt16 then to_wstring result.UInt16Val
  else if result.type = EvtVarTypeUInt64 then to_wstring result.UInt64Val
  else if result.type = EvtVarTypeNull then "NULL"
  else "Unknown VARIANT: " ++ to_wstring result.type

/-- `EventLogs::GetEventParam(hEvent, param)`: the rendered text (or `none`) and
the effects of the call. -/
def GetEventParam (svc : LogService) (hEvent : EVT_HANDLE) (param : String) :
    Option String × List Effect :=
  let hContext := svc.EvtCreateRenderContext param
  if hContext.handle = NULL then
    (none, [Effect.LOG_ERROR
      ("EventLogs::GetEventParam: EvtCreateRenderContext failed with "
        ++ to_wstring hContext.lastError)])
  else
    let probe := svc.EvtRenderValues hContext.handle hEvent 0 none
    let dwBufferSize := probe.BufferUsed
    let value : Option String :=
      if probe.ok then none
      else if probe.lastError = ERROR_INSUFFICIENT_BUFFER then
        if svc.HeapAlloc dwBufferSize then
          let second := svc.EvtRenderValues hContext.handle hEvent dwBufferSize (some dwBufferSize)
          if second.ok then some (GetEventParam.dispatch second.content) else none
        else none
      else none
    (value, EventWrapper.destroy hContext.handle)

/-- `EventLogs::GetEventXML(hEvent)`. -/
def GetEventXML (svc : LogService) (hEvent : EVT_HANDLE) : Option String :=
  let probe := svc.EvtRenderXml hEvent 0 none
  let dwBufferSize := probe.BufferUsed
  if probe.ok then none
  else if probe.lastError = ERROR_INSUFFICIENT_BUFFER then
    if svc.HeapAlloc dwBufferSize then
      let second := svc.EvtRenderXml hEvent dwBufferSize (some dwBufferSize)
      if second.ok then some second.content else none
    else none
  else none

/-! ## Event Normalizer -/

/-- The two exceptions `std::stoul` throws. -/
inductive Exception where
  | invalid_argument
  | out_of_range
deriving DecidableEq, Repr

/-- White space skipped by `wcstoul` (space, and the controls 9 to 13). -/
def iswspace (c : Char) : Bool := c.toNat = 32 || (9 ≤ c.toNat && c.toNat ≤ 13)

/-- A decimal digit, `0` to `9`. -/
def iswdigit (c : Char) : Bool := 48 ≤ c.toNat && c.toNat ≤ 57

/-- Value of a run of decimal digits, most significant first. -/
def digitsValue (digits : List Char) : Nat :=
  digits.foldl (fun acc c => 10 * acc + (c.toNat - 48)) 0

/-- `std::stoul(str)` with the default arguments (`idx = nullptr`, base 10), as
the C++ standard defines it through `wcstoul`: leading white space is skipped,
one sign (`-` is 45, `+` is 43) is accepted, the longest run of digits is
converted and whatever follows is ignored; no digits throws `invalid_argument`,
a magnitude above `ULONG_MAX` throws `out_of_range`, a minus sign negates in
`unsigned long`. -/
def stoul (str : String) : Except Exception Nat :=
  let s := str.toList.dropWhile iswspace
  let negative : Bool := (s.head?.map Char.toNat) = some 45
  let body : List Char :=
    match s with
    | c :: rest => if c.toNat = 45 ∨ c.toNat = 43 then rest else s
    | [] => []
  let digits := body.takeWhile iswdigit
  if digits = [] then .error .invalid_argument
  else if ULONG_MAX < digitsValue digits then .error .out_of_range
  else if negative then .ok ((ULONG_MAX + 1 - digitsValue digits) % (ULONG_MAX + 1))
  else .ok (digitsValue digits)

/-- The loop over `params` in `EventToEventLogItem` (source lines 130–137):
renders each key in order and records `SetProperty(key, value)`; stops with
`none` at the first key that does not render. -/
def EventToEventLogItem.properties (svc : LogService) (hEvent : EVT_HANDLE) :
    List String → List (String × String) → Option (List (String × String)) × List Effect
  | [], acc => (some acc, [])
  | key :: rest, acc =>
    let val := GetEventParam svc hEvent key
    match val.1 with
    | none => (none, val.2)
    | some v =>
      let r := EventToEventLogItem.properties svc hEvent rest (acc ++ [(key, v)])
      (r.1, val.2 ++ r.2)

/-- `EventToEventLogItem(hEvent, params)`: `.ok none` is the empty optional,
`.ok (some item)` a record, `.error e` an exception thrown by `std::stoul`. -/
def EventToEventLogItem (svc : LogService) (hEvent : EVT_HANDLE) (params : List String) :
    Except Exception (Option EventLogItem) × List Effect :=
  let eventIDStr := GetEventParam svc hEvent "Event/System/EventID"
  match eventIDStr.1 with
  | none => (.ok none, eventIDStr.2)
  | some idStr =>
    let eventRecordIDStr := GetEventParam svc hEvent "Event/System/EventRecordID"
    match eventRecordIDStr.1 with
    | none => (.ok none, eventIDStr.2 ++ eventRecordIDStr.2)
    | some recordStr =>
      let timeCreated := GetEventParam svc hEvent "Event/System/TimeCreated/@SystemTime"
      match timeCreated.1 with
      | none => (.ok none, eventIDStr.2 ++ eventRecordIDStr.2 ++ timeCreated.2)
      | some time =>
        let channel := GetEventParam svc hEvent "Event/System/Channel"
        let fx := eventIDStr.2 ++ eventRecordIDStr.2 ++ timeCreated.2 ++ channel.2
        match channel.1 with
        | none => (.ok none, fx)
        | some chan =>
          match GetEventXML svc hEvent with
          | none => (.ok none, fx)
          | some rawXML =>
            let props := EventToEventLogItem.properties svc hEvent params []
            match props.1 with
            | none => (.ok none, fx ++ props.2)
            | some properties =>
              match stoul idStr with
              | .error e => (.error e, fx ++ props.2)
              | .ok eventID =>
                match stoul recordStr with
                | .error e => (.error e, fx ++ props.2)
                | .ok eventRecordID =>
                  (.ok (some
                    { eventID := eventID, eventRecordID := eventRecordID, timeCreated := time,
                      channel := chan, rawXML := rawXML, properties := properties }),
                   fx ++ props.2)

/-! ## Result Enumerator -/

/-- The `for` loop over one fetched batch (source lines 86–95), with `n`
iterations left and loop index `i`.  The call on line 88 passes the raw handle
`hEvents[i]` where a `const EventWrapper&` is expected, so a temporary guard is
built from it and destroyed when the call expression ends, also when the call
throws.  A thrown exception leaves the loop and the function at once. -/
def ProcessResults.batch (svc : LogService) (params : List String) :
    Nat → Nat → List EVT_HANDLE → List EventLogItem →
      Except Exception (List EVT_HANDLE × List EventLogItem) × List Effect
  | 0, _, hEvents, results => (.ok (hEvents, results), [])
  | n + 1, i, hEvents, results =>
    let h := hEvents.getD i NULL
    let item := EventToEventLogItem svc h params
    let guard := EventWrapper.destroy h
    match item.1 with
    | .error e => (.error e, item.2 ++ guard)
    | .ok found =>
      let results1 := match found with
        | some it => results ++ [it]
        | none => results
      let rest := ProcessResults.batch svc params n (i + 1) (hEvents.set i NULL) results1
      (rest.1, item.2 ++ guard ++ [Effect.EvtClose h] ++ rest.2)

/-- The `while (EvtNext(...))` loop (source lines 85–96) over the batches the
result set still has to deliver.  A successful `EvtNext` stores the batch in the
leading slots of `hEvents` and leaves the other slots alone (a batch never has
more than `ARRAY_SIZE` handles); the failing call changes no slot. -/
def ProcessResults.loop (svc : LogService) (hResults : EVT_HANDLE) (params : List String) :
    List (List EVT_HANDLE) → List EVT_HANDLE → List EventLogItem →
      Except Exception (List EVT_HANDLE × List EventLogItem) × List Effect
  | [], hEvents, results =>
    (.ok (hEvents, results), [Effect.EvtNext hResults ARRAY_SIZE INFINITE])
  | b :: bs, hEvents, results =>
    let fetched := b ++ hEvents.drop b.length
    let r := ProcessResults.batch svc params b.length 0 fetched results
    match r.1 with
    | .error e => (.error e, Effect.EvtNext hResults ARRAY_SIZE INFINITE :: r.2)
    | .ok (hEvents1, results1) =>
      let rest := ProcessResults.loop svc hResults params bs hEvents1 results1
      (rest.1, Effect.EvtNext hResults ARRAY_SIZE INFINITE :: r.2 ++ rest.2)

/-- The final loop over the batch slots (source lines 98–102): every non-null
slot is closed.  The first component is what `GetLastError()` reports
afterwards, starting from `lastError`. -/
def ProcessResults.cleanup (svc : LogService) : List EVT_HANDLE → Nat → Nat × List Effect
  | [], lastError => (lastError, [])
  | h :: hs, lastError =>
    if h = NULL then ProcessResults.cleanup svc hs lastError
    else
      let lastError1 := match svc.EvtClose h with
        | none => lastError
        | some e => e
      let r := ProcessResults.cleanup svc hs lastError1
      (r.1, Effect.EvtClose h :: r.2)

/-- The ten slots `hEvents[0] … hEvents[ARRAY_SIZE - 1]`. -/
def ProcessResults.slots (hEvents : List EVT_HANDLE) : List EVT_HANDLE :=
  (List.range ARRAY_SIZE).map (fun i => hEvents.getD i NULL)

/-- `EventLogs::ProcessResults(hResults, filters)`.  The local array
`EVT_HANDLE hEvents[ARRAY_SIZE];` has no initialiser: `hEvents0` is whatever the
ten slots hold when the function starts. -/
def ProcessResults (svc : LogService) (hEvents0 : List EVT_HANDLE) (hResults : EVT_HANDLE)
    (filters : List XpathQuery) : Except Exception (List EventLogItem) × List Effect :=
  let params := (filters.filter (fun query => !query.SearchesByValue)).map XpathQuery.ToString
  let r := ProcessResults.loop svc hResults params (svc.EvtNext hResults).batches hEvents0 []
  match r.1 with
  | .error e => (.error e, r.2)
  | .ok (hEvents, results) =>
    let c := ProcessResults.cleanup svc (ProcessResults.slots hEvents) (svc.EvtNext hResults).lastError
    let log :=
      if c.1 ≠ ERROR_NO_MORE_ITEMS then
        [Effect.LOG_ERROR ("EventLogs::ProcessResults: EvtNext failed with " ++ to_wstring c.1)]
      else []
    (.ok results, r.2 ++ c.2 ++ log)

/-! ## Query Engine and Subscription Engine -/

/-- The filter expression as the specification words it:
`Event/System[EventID=<eventID>]`, then, for each predicate in list order, the
conjunction ` and ` followed by the predicate's serialized form. -/
def FilterExpression_spec (eventID : Nat) (predicates : List XpathQuery) : String :=
  "Event/System[EventID=" ++ Nat.repr eventID ++ "]"
    ++ String.join (predicates.map (fun p => " and " ++ p.ToString))

/-- `EventLogs::QueryEvents(channel, id, filters)`. -/
def QueryEvents (svc : LogService) (hEvents0 : List EVT_HANDLE) (channel : String) (id : Nat)
    (filters : List XpathQuery) : Except Exception (List EventLogItem) × List Effect :=
  let query := filters.foldl (fun query param => query ++ (" and " ++ param.ToString))
    ("Event/System[EventID=" ++ to_wstring id ++ "]")
  let flags := EvtQueryChannelPath ||| EvtQueryReverseDirection
  let hResults := svc.EvtQuery channel query flags
  let call := Effect.EvtQuery channel query flags
  if hResults.handle = NULL then
    if hResults.lastError = ERROR_EVT_CHANNEL_NOT_FOUND then
      (.ok [], [call, Effect.LOG_ERROR "EventLogs::QueryEvents: The channel was not found."])
    else if hResults.lastError = ERROR_EVT_INVALID_QUERY then
      (.ok [], [call, Effect.LOG_ERROR ("EventLogs::QueryEvents: The query " ++ query ++ " is not valid.")])
    else
      (.ok [], [call, Effect.LOG_ERROR
        ("EventLogs::QueryEvents: EvtQuery failed with " ++ to_wstring hResults.lastError)])
  else
    let r := ProcessResults svc hEvents0 hResults.handle filters
    (r.1, call :: r.2 ++ EventWrapper.destroy hResults.handle)

/-- The member call `setSubHandle(h)` on the entry at `index`. -/
def setSubHandle {κ : Type} (h : EVT_HANDLE) :
    Nat → List (EventSubscription κ) → List (EventSubscription κ)
  | _, [] => []
  | 0, s :: rest => { s with hSubscription := h } :: rest
  | index + 1, s :: rest => s :: setSubHandle h index rest

/-- `EventLogs::SubscribeToEvent(pwsPath, id, callback, filters)` acting on the
global vector `subscriptions`.  The result is the returned optional reference
(the index of the entry referred to), the vector afterwards, and the effects.
A freshly constructed `EventSubscription{ callback }` holds no handle. -/
def SubscribeToEvent {κ : Type} (svc : LogService) (subscriptions : List (EventSubscription κ))
    (pwsPath : String) (id : Nat) (callback : κ) (filters : List XpathQuery) :
    (Option Nat × List (EventSubscription κ)) × List Effect :=
  let query := filters.foldl (fun query param => query ++ (" and " ++ param.ToString))
    ("Event/System[EventID=" ++ to_wstring id ++ "]")
  let subscriptions1 := subscriptions ++ [{ callback := callback, hSubscription := NULL }]
  let eventSub := subscriptions1.length - 1
  let hSubscription := svc.EvtSubscribe pwsPath query eventSub EvtSubscribeToFutureEvents
  let call := Effect.EvtSubscribe pwsPath query eventSub EvtSubscribeToFutureEvents
  let subscriptions2 := setSubHandle hSubscription.handle eventSub subscriptions1
  if hSubscription.handle = NULL then
    if hSubscription.lastError = ERROR_EVT_CHANNEL_NOT_FOUND then
      ((none, subscriptions2),
        [call, Effect.LOG_ERROR "EventLogs::SubscribeToEvent: Channel was not found."])
    else if hSubscription.lastError = ERROR_EVT_INVALID_QUERY then
      ((none, subscriptions2),
        [call, Effect.LOG_ERROR ("EventLogs::SubscribeToEvent: query " ++ query ++ " is not valid.")])
    else
      ((none, subscriptions2),
        [call, Effect.LOG_ERROR
          ("EventLogs::SubscribeToEvent: EvtSubscribe failed with " ++ to_wstring hSubscription.lastError)])
  else
    ((some eventSub, subscriptions2), [call])

/-- The two-phase size negotiation as the specification words it, for one
render operation `render BufferSize Buffer`: the zero-size probe failed with
"insufficient buffer" and reported `size`; a buffer of exactly `size` bytes was
allocated; the second call, given that buffer and that same size, succeeded and
left `content` in the buffer. -/
def Negotiated_spec {α : Type} (render : Nat → Option Nat → RenderReply α) (alloc : Nat → Bool)
    (size : Nat) (content : α) : Prop :=
  (render 0 none).ok = false ∧
  (render 0 none).lastError = ERROR_INSUFFICIENT_BUFFER ∧
  (render 0 none).BufferUsed = size ∧
  alloc size = true ∧
  (render size (some size)).ok = true ∧
  (render size (some size)).content = content

instance {α : Type} [DecidableEq α] (render : Nat → Option Nat → RenderReply α)
    (alloc : Nat → Bool) (size : Nat) (content : α) :
    Decidable (Negotiated_spec render alloc size content) := by
  unfold Negotiated_spec; infer_instance

/-- Enumeration of delivered event handles, in delivery order, with a given
normalization: a record is appended when normalization returns one, nothing is
appended when it returns empty, and an exception ends the enumeration. -/
def collect (normalize : EVT_HANDLE → Except Exception (Option EventLogItem)) :
    List EVT_HANDLE → List EventLogItem → Except Exception (List EventLogItem)
  | [], results => .ok results
  | h :: hs, results =>
    match normalize h with
    | .error e => .error e
    | .ok none => collect normalize hs results
    | .ok (some item) => collect normalize hs (results ++ [item])

/-- The record of an event whose normalization succeeded; `none` when it
returned empty or threw. -/
def recordOf (svc : LogService) (params : List String) (h : EVT_HANDLE) : Option EventLogItem :=
  match (EventToEventLogItem svc h params).1 with
  | .ok found => found
  | .error _ => none

/-- The extra field paths `ProcessResults` requests for a predicate list
(source lines 77–82). -/
def paramsOf (filters : List XpathQuery) : List String :=
  (filters.filter (fun query => !query.SearchesByValue)).map XpathQuery.ToString

/-- The number `std::stoul` returns for a run of digits: the value of the run,
negated in `unsigned long` when a minus sign preceded it. -/
def unsignedValue (negative : Bool) (digits : List Char) : Nat :=
  if negative then (ULONG_MAX + 1 - digitsValue digits) % (ULONG_MAX + 1)
  else digitsValue digits

/-- How `std::stoul` reads a text, in the words of the C++ standard: the text
is white space `ws`, then at most one sign (`+` is 43, `-` is 45), then a run
`digits` of decimal digits, then a remainder `rest` that is ignored.  The white
space and the run are as long as they can be, and a sign that is present is
taken: without a sign, what follows the white space starts neither with white
space nor with a sign; the remainder does not start with a digit.  `negative`
tells whether the sign is a minus. -/
def ReadsAs (text : String) (negative : Bool) (digits : List Char) : Prop :=
  ∃ ws sign rest : List Char,
    text.toList = ws ++ (sign ++ (digits ++ rest)) ∧
    (∀ c ∈ ws, iswspace c = true) ∧
    sign.length ≤ 1 ∧
    (∀ c ∈ sign, c.toNat = 43 ∨ c.toNat = 45) ∧
    (negative = true ↔ ∃ c ∈ sign, c.toNat = 45) ∧
    (sign = [] → ∀ c, (digits ++ rest).head? = some c →
      iswspace c = false ∧ c.toNat ≠ 43 ∧ c.toNat ≠ 45) ∧
    (∀ c ∈ digits, iswdigit c = true) ∧
    (∀ c, rest.head? = some c → iswdigit c = false)

/-- How many times a trace releases the handle `h`: explicit `EvtClose(h)` calls
plus Handle Guard destructions of a guard holding `h`. -/
def releasesOf (h : EVT_HANDLE) (trace : List Effect) : Nat :=
  trace.count (Effect.EvtClose h) + trace.count (Effect.release h)

/-! ## Sample services used to instantiate the theorems -/

/-- Context handle the sample service hands out for a value path; it knows five
paths and fails to create a context for any other. -/
def sampleContext (path : String) : EVT_HANDLE :=
  if path = "Event/System/EventID" then 101
  else if path = "Event/System/EventRecordID" then 102
  else if path = "Event/System/TimeCreated/@SystemTime" then 103
  else if path = "Event/System/Channel" then 104
  else if path = "Event/System/Level" then 105
  else NULL

/-- Values the sample service renders: `idValue ev` for the event ID path,
`recordValue ev` for the record ID path, fixed strings for time and channel, the
null kind for the level path. -/
def sampleValue (idValue recordValue : EVT_HANDLE → EVT_VARIANT) (ctx ev : EVT_HANDLE) :
    EVT_VARIANT :=
  if ctx = 101 then idValue ev
  else if ctx = 102 then recordValue ev
  else if ctx = 103 then ⟨0, "2020-01-01T00:00:00Z", EvtVarTypeString⟩
  else if ctx = 104 then ⟨0, "Security", EvtVarTypeString⟩
  else ⟨0, "", EvtVarTypeNull⟩

/-- A log service that follows the two-phase protocol for every render, whose
result sets all deliver `batches` and then fail with `err`, and whose query and
subscribe calls reply `query` and `subscribe`. -/
def sampleService (idValue recordValue : EVT_HANDLE → EVT_VARIANT)
    (batches : List (List EVT_HANDLE)) (err : Nat) (query subscribe : HandleReply) :
    LogService where
  EvtCreateRenderContext path := ⟨sampleContext path, 0⟩
  EvtRenderValues ctx ev _ buf :=
    match buf with
    | none => ⟨false, ERROR_INSUFFICIENT_BUFFER, 32, ⟨0, "", 0⟩⟩
    | some _ => ⟨true, 0, 32, sampleValue idValue recordValue ctx ev⟩
  EvtRenderXml _ _ buf :=
    match buf with
    | none => ⟨false, ERROR_INSUFFICIENT_BUFFER, 64, ""⟩
    | some _ => ⟨true, 0, 64, "<Event/>"⟩
  HeapAlloc _ := true
  EvtQuery _ _ _ := query
  EvtNext _ := ⟨batches, err⟩
  EvtClose _ := none
  EvtSubscribe _ _ _ _ := subscribe

/-- Event ID rendered as the 16-bit unsigned value 4625. -/
def id4625 : EVT_HANDLE → EVT_VARIANT := fun _ => ⟨4625, "", EvtVarTypeUInt16⟩

/-- Record ID rendered as a 64-bit unsigned value (the handle number itself). -/
def recordOfHandle : EVT_HANDLE → EVT_VARIANT := fun ev => ⟨ev, "", EvtVarTypeUInt64⟩

/-- A service whose event ID path renders the 16-bit unsigned value 7. -/
def serviceUInt16 : LogService :=
  sampleService (fun _ => ⟨7, "", EvtVarTypeUInt16⟩) recordOfHandle [] ERROR_NO_MORE_ITEMS
    ⟨900, 0⟩ ⟨901, 0⟩

/-- Ten null slots. -/
def nullSlots : List EVT_HANDLE := List.replicate ARRAY_SIZE NULL

/-- A healthy service: every event renders event ID 4625 and its own record ID;
the result set delivers `batches` and then fails with `err`. -/
def serviceGood (batches : List (List EVT_HANDLE)) (err : Nat) : LogService :=
  sampleService id4625 recordOfHandle batches err ⟨900, 0⟩ ⟨901, 0⟩

/-- A service delivering one batch with the events 7 and 8, where the event ID
path of event 7 renders the null kind (text `"NULL"`) and event 8 is healthy. -/
def serviceNullID : LogService :=
  sampleService (fun ev => if ev = 7 then ⟨0, "", EvtVarTypeNull⟩ else ⟨4625, "", EvtVarTypeUInt16⟩)
    recordOfHandle [[7, 8]] ERROR_NO_MORE_ITEMS ⟨900, 0⟩ ⟨901, 0⟩

/-- A service delivering event 7 and then, in a second batch, event 8, where the
record ID path of event 7 renders a 32-bit unsigned kind (kind number 8, which
`GetEventParam` does not recognise) and event 8 is healthy. -/
def serviceUInt32Record : LogService :=
  sampleService id4625 (fun ev => if ev = 7 then ⟨7, "", 8⟩ else ⟨ev, "", EvtVarTypeUInt64⟩)
    [[7], [8]] ERROR_NO_MORE_ITEMS ⟨900, 0⟩ ⟨901, 0⟩

/-- A service whose event ID path renders the string `"12abc"`. -/
def serviceTextID : LogService :=
  sampleService (fun _ => ⟨0, "12abc", EvtVarTypeString⟩) recordOfHandle [[7]]
    ERROR_NO_MORE_ITEMS ⟨900, 0⟩ ⟨901, 0⟩

/-- A service whose record ID path renders the 64-bit unsigned value
5000000000, above the 32-bit range. -/
def serviceBigRecord : LogService :=
  sampleService id4625 (fun _ => ⟨5000000000, "", EvtVarTypeUInt64⟩) [[7]]
    ERROR_NO_MORE_ITEMS ⟨900, 0⟩ ⟨901, 0⟩

/-- The record the healthy event `h` normalizes to in the sample services. -/
def sampleRecord (h : EVT_HANDLE) : EventLogItem :=
  ⟨4625, h, "2020-01-01T00:00:00Z", "Security", "<Event/>", []⟩

/-- A healthy service delivering the events 1, 2, 3 in one batch, except that
the zero-size XML probe for event 2 unexpectedly succeeds, so the XML of event 2
does not render. -/
def serviceXmlFails : LogService :=
  { serviceGood [[1, 2, 3]] ERROR_NO_MORE_ITEMS with
    EvtRenderXml := fun ev size buf =>
      if ev = 2 then ⟨true, 0, 0, ""⟩
      else (serviceGood [[1, 2, 3]] ERROR_NO_MORE_ITEMS).EvtRenderXml ev size buf }

/-- A service whose query call fails with "channel not found". -/
def serviceNoChannel : LogService :=
  sampleService id4625 recordOfHandle [[7]] ERROR_NO_MORE_ITEMS
    ⟨NULL, ERROR_EVT_CHANNEL_NOT_FOUND⟩ ⟨NULL, ERROR_EVT_CHANNEL_NOT_FOUND⟩

/-! ## Theorems -/

/-! ### Renderers -/

/-- When it is a value, the result of `GetEventParam` is the dispatch of the
second render's content, and it is a value exactly when the context was
created and the two-phase protocol ran to the end. -/
theorem GetEventParam_eq_some (svc : LogService) (hEvent : EVT_HANDLE) (param s : String) :
    (GetEventParam svc hEvent param).1 = some s ↔
      (svc.EvtCreateRenderContext param).handle ≠ NULL ∧
      (svc.EvtRenderValues (svc.EvtCreateRenderContext param).handle hEvent 0 none).ok = false ∧
      (svc.EvtRenderValues (svc.EvtCreateRenderContext param).handle hEvent 0 none).lastError
        = ERROR_INSUFFICIENT_BUFFER ∧
      svc.HeapAlloc
        (svc.EvtRenderValues (svc.EvtCreateRenderContext param).handle hEvent 0 none).BufferUsed
        = true ∧
      (svc.EvtRenderValues (svc.EvtCreateRenderContext param).handle hEvent
        (svc.EvtRenderValues (svc.EvtCreateRenderContext param).handle hEvent 0 none).BufferUsed
        (some (svc.EvtRenderValues (svc.EvtCreateRenderContext param).handle hEvent 0
          none).BufferUsed)).ok = true ∧
      s = GetEventParam.dispatch
        (svc.EvtRenderValues (svc.EvtCreateRenderContext param).handle hEvent
          (svc.EvtRenderValues (svc.EvtCreateRenderContext param).handle hEvent 0 none).BufferUsed
          (some (svc.EvtRenderValues (svc.EvtCreateRenderContext param).handle hEvent 0
            none).BufferUsed)).content := by
  unfold GetEventParam
  by_cases hctx : (svc.EvtCreateRenderContext param).handle = NULL
  · simp [hctx]
  · simp only [hctx, if_false, ne_eq, not_false_eq_true, true_and]
    cases hp : (svc.EvtRenderValues (svc.EvtCreateRenderContext param).handle hEvent 0 none).ok
    · by_cases he : (svc.EvtRenderValues (svc.EvtCreateRenderContext param).handle hEvent 0
          none).lastError = ERROR_INSUFFICIENT_BUFFER
      · cases ha : svc.HeapAlloc
            (svc.EvtRenderValues (svc.EvtCreateRenderContext param).handle hEvent 0 none).BufferUsed
        · simp [he]
        · cases h2 : (svc.EvtRenderValues (svc.EvtCreateRenderContext param).handle hEvent
              (svc.EvtRenderValues (svc.EvtCreateRenderContext param).handle hEvent 0
                none).BufferUsed
              (some (svc.EvtRenderValues (svc.EvtCreateRenderContext param).handle hEvent 0
                none).BufferUsed)).ok
          · simp [he]
          · simp [he, eq_comm]
      · simp [he]
    · simp

/-- The XML renderer returns a value exactly when the two-phase protocol ran to
the end, and the value is the second render's content. -/
theorem GetEventXML_eq_some (svc : LogService) (hEvent : EVT_HANDLE) (s : String) :
    GetEventXML svc hEvent = some s ↔
      (svc.EvtRenderXml hEvent 0 none).ok = false ∧
      (svc.EvtRenderXml hEvent 0 none).lastError = ERROR_INSUFFICIENT_BUFFER ∧
      svc.HeapAlloc (svc.EvtRenderXml hEvent 0 none).BufferUsed = true ∧
      (svc.EvtRenderXml hEvent (svc.EvtRenderXml hEvent 0 none).BufferUsed
        (some (svc.EvtRenderXml hEvent 0 none).BufferUsed)).ok = true ∧
      s = (svc.EvtRenderXml hEvent (svc.EvtRenderXml hEvent 0 none).BufferUsed
        (some (svc.EvtRenderXml hEvent 0 none).BufferUsed)).content := by
  unfold GetEventXML
  cases hp : (svc.EvtRenderXml hEvent 0 none).ok
  · by_cases he : (svc.EvtRenderXml hEvent 0 none).lastError = ERROR_INSUFFICIENT_BUFFER
    · cases ha : svc.HeapAlloc (svc.EvtRenderXml hEvent 0 none).BufferUsed
      · simp [he, hp, ha]
      · cases h2 : (svc.EvtRenderXml hEvent (svc.EvtRenderXml hEvent 0 none).BufferUsed
            (some (svc.EvtRenderXml hEvent 0 none).BufferUsed)).ok
        · simp [he, hp, ha, h2]
        · simp only [he, hp, ha, h2, if_true, Bool.false_eq_true, if_false, Option.some.injEq,
            true_and]
          exact eq_comm
    · simp [he, hp]
  · simp [hp]

/-- The parameter renderer in terms of the two-phase protocol. -/
theorem GetEventParam_negotiated (svc : LogService) (hEvent : EVT_HANDLE) (param s : String) :
    (GetEventParam svc hEvent param).1 = some s ↔
      (svc.EvtCreateRenderContext param).handle ≠ NULL ∧
      ∃ size v, Negotiated_spec
        (svc.EvtRenderValues (svc.EvtCreateRenderContext param).handle hEvent) svc.HeapAlloc size v
        ∧ s = GetEventParam.dispatch v := by
  rw [GetEventParam_eq_some]
  constructor
  · rintro ⟨h0, h1, h2, h3, h4, h5⟩
    exact ⟨h0, _, _, ⟨h1, h2, rfl, h3, h4, rfl⟩, h5⟩
  · rintro ⟨h0, size, v, ⟨h1, h2, h3, h4, h5, h6⟩, h7⟩
    subst h3
    subst h6
    exact ⟨h0, h1, h2, h4, h5, h7⟩

/-- The XML renderer in terms of the two-phase protocol. -/
theorem GetEventXML_negotiated (svc : LogService) (hEvent : EVT_HANDLE) (s : String) :
    GetEventXML svc hEvent = some s ↔
      ∃ size, Negotiated_spec (svc.EvtRenderXml hEvent) svc.HeapAlloc size s := by
  rw [GetEventXML_eq_some]
  constructor
  · rintro ⟨h1, h2, h3, h4, h5⟩
    exact ⟨_, h1, h2, rfl, h3, h4, h5.symm⟩
  · rintro ⟨size, h1, h2, h3, h4, h5, h6⟩
    subst h3
    exact ⟨h1, h2, h4, h5, h6.symm⟩

/-- C10. Two-phase size negotiation in both renderers: `GetEventParam` and
`GetEventXML` return a value exactly when the zero-size probe failed with
"insufficient buffer", a buffer of exactly the size that probe reported was
allocated, and the second render call, given that buffer and that same size,
succeeded (for `GetEventParam`, after the render context was created); the
value is what that second call rendered.  In every other case the result is
empty. -/
theorem C10_two_phase_size_negotiation (svc : LogService) (hEvent : EVT_HANDLE)
    (param : String) :
    (∀ s, (GetEventParam svc hEvent param).1 = some s ↔
      (svc.EvtCreateRenderContext param).handle ≠ NULL ∧
      ∃ size v, Negotiated_spec
        (svc.EvtRenderValues (svc.EvtCreateRenderContext param).handle hEvent) svc.HeapAlloc size v
        ∧ s = GetEventParam.dispatch v) ∧
    ((GetEventParam svc hEvent param).1 = none ↔
      ¬ ((svc.EvtCreateRenderContext param).handle ≠ NULL ∧
        ∃ size v, Negotiated_spec
          (svc.EvtRenderValues (svc.EvtCreateRenderContext param).handle hEvent) svc.HeapAlloc
          size v)) ∧
    (∀ s, GetEventXML svc hEvent = some s ↔
      ∃ size, Negotiated_spec (svc.EvtRenderXml hEvent) svc.HeapAlloc size s) ∧
    (GetEventXML svc hEvent = none ↔
      ¬ ∃ size s, Negotiated_spec (svc.EvtRenderXml hEvent) svc.HeapAlloc size s) := by
  refine ⟨fun s => GetEventParam_negotiated svc hEvent param s, ?_,
    fun s => GetEventXML_negotiated svc hEvent s, ?_⟩
  · constructor
    · rintro hnone ⟨h0, size, v, hn⟩
      have := (GetEventParam_negotiated svc hEvent param _).2 ⟨h0, size, v, hn, rfl⟩
      rw [hnone] at this
      exact Option.noConfusion this
    · intro hno
      cases hres : (GetEventParam svc hEvent param).1 with
      | none => rfl
      | some s =>
        obtain ⟨h0, size, v, hn, _⟩ := (GetEventParam_negotiated svc hEvent param s).1 hres
        exact absurd ⟨h0, size, v, hn⟩ hno
  · constructor
    · rintro hnone ⟨size, s, hn⟩
      have := (GetEventXML_negotiated svc hEvent s).2 ⟨size, hn⟩
      rw [hnone] at this
      exact Option.noConfusion this
    · intro hno
      cases hres : GetEventXML svc hEvent with
      | none => rfl
      | some s =>
        obtain ⟨size, hn⟩ := (GetEventXML_negotiated svc hEvent s).1 hres
        exact absurd ⟨size, s, hn⟩ hno

/-- C7. Render-variant dispatch: when a value `v` was rendered successfully
(context created, two-phase protocol completed), `GetEventParam` returns the
embedded string for the string kind, the decimal text of the 64-bit value for
the file-time kind, the decimal text of the value for the 16-bit and 64-bit
unsigned kinds, `"NULL"` for the null kind, and `"Unknown VARIANT: N"` for any
other kind number `N`. -/
theorem C7_render_variant_dispatch (svc : LogService) (hEvent : EVT_HANDLE) (param : String)
    (size : Nat) (v : EVT_VARIANT)
    (hctx : (svc.EvtCreateRenderContext param).handle ≠ NULL)
    (hrender : Negotiated_spec
      (svc.EvtRenderValues (svc.EvtCreateRenderContext param).handle hEvent) svc.HeapAlloc size v) :
    (v.type = EvtVarTypeString → (GetEventParam svc hEvent param).1 = some v.StringVal) ∧
    (v.type = EvtVarTypeFileTime →
      (GetEventParam svc hEvent param).1 = some (Nat.repr (v.bits % 2 ^ 64))) ∧
    (v.type = EvtVarTypeUInt16 →
      (GetEventParam svc hEvent param).1 = some (Nat.repr (v.bits % 2 ^ 16))) ∧
    (v.type = EvtVarTypeUInt64 →
      (GetEventParam svc hEvent param).1 = some (Nat.repr (v.bits % 2 ^ 64))) ∧
    (v.type = EvtVarTypeNull → (GetEventParam svc hEvent param).1 = some "NULL") ∧
    (v.type ≠ EvtVarTypeString → v.type ≠ EvtVarTypeFileTime → v.type ≠ EvtVarTypeUInt16 →
      v.type ≠ EvtVarTypeUInt64 → v.type ≠ EvtVarTypeNull →
      (GetEventParam svc hEvent param).1 = some ("Unknown VARIANT: " ++ Nat.repr v.type)) := by
  have hval : (GetEventParam svc hEvent param).1 = some (GetEventParam.dispatch v) :=
    (GetEventParam_negotiated svc hEvent param _).2 ⟨hctx, size, v, hrender, rfl⟩
  rw [hval]
  refine ⟨?_, ?_, ?_, ?_, ?_, ?_⟩
  · intro h
    simp [GetEventParam.dispatch, h]
  · intro h
    simp [GetEventParam.dispatch, h, EvtVarTypeString, EvtVarTypeFileTime, to_wstring,
      EVT_VARIANT.FileTimeVal]
  · intro h
    simp [GetEventParam.dispatch, h, EvtVarTypeString, EvtVarTypeFileTime, EvtVarTypeUInt16,
      to_wstring, EVT_VARIANT.UInt16Val]
  · intro h
    simp [GetEventParam.dispatch, h, EvtVarTypeString, EvtVarTypeFileTime, EvtVarTypeUInt16,
      EvtVarTypeUInt64, to_wstring, EVT_VARIANT.UInt64Val]
  · intro h
    simp [GetEventParam.dispatch, h, EvtVarTypeString, EvtVarTypeFileTime, EvtVarTypeUInt16,
      EvtVarTypeUInt64, EvtVarTypeNull]
  · intro h1 h2 h3 h4 h5
    simp [GetEventParam.dispatch, h1, h2, h3, h4, h5, to_wstring]

/-- C7 at a concrete service: the 16-bit unsigned value 7 renders to `"7"`. -/
theorem C7_render_variant_dispatch_witness :
    (serviceUInt16.EvtCreateRenderContext "Event/System/EventID").handle ≠ NULL ∧
    Negotiated_spec
      (serviceUInt16.EvtRenderValues
        (serviceUInt16.EvtCreateRenderContext "Event/System/EventID").handle 1)
      serviceUInt16.HeapAlloc 32 ⟨7, "", EvtVarTypeUInt16⟩ ∧
    (GetEventParam serviceUInt16 1 "Event/System/EventID").1 = some "7" :=
  ⟨by decide, by decide,
    (C7_render_variant_dispatch serviceUInt16 1 "Event/System/EventID" 32
      ⟨7, "", EvtVarTypeUInt16⟩ (by decide) (by decide)).2.2.1 rfl⟩

/-! ### Event Normalizer -/

/-- The property loop yields `none` exactly when some requested key does not
render. -/
theorem properties_eq_none (svc : LogService) (hEvent : EVT_HANDLE) (params : List String) :
    ∀ acc, (EventToEventLogItem.properties svc hEvent params acc).1 = none ↔
      ∃ key ∈ params, (GetEventParam svc hEvent key).1 = none := by
  induction params with
  | nil => intro acc; simp [EventToEventLogItem.properties]
  | cons key rest ih =>
    intro acc
    unfold EventToEventLogItem.properties
    cases hk : (GetEventParam svc hEvent key).1 with
    | none => simp [hk]
    | some v => simp [hk, ih]

/-- When the property loop succeeds it has appended, in order, one pair per
requested key, holding the value rendered for that key. -/
theorem properties_eq_some (svc : LogService) (hEvent : EVT_HANDLE) (params : List String) :
    ∀ acc out, (EventToEventLogItem.properties svc hEvent params acc).1 = some out →
      ∃ vals, out = acc ++ vals ∧ vals.map Prod.fst = params ∧
        ∀ kv ∈ vals, (GetEventParam svc hEvent kv.1).1 = some kv.2 := by
  induction params with
  | nil =>
    intro acc out h
    simp [EventToEventLogItem.properties] at h
    exact ⟨[], by simp [h], rfl, by simp⟩
  | cons key rest ih =>
    intro acc out h
    unfold EventToEventLogItem.properties at h
    cases hk : (GetEventParam svc hEvent key).1 with
    | none => simp [hk] at h
    | some v =>
      simp only [hk] at h
      obtain ⟨vals, h1, h2, h3⟩ := ih _ _ h
      refine ⟨(key, v) :: vals, by simp [h1], by simp [h2], ?_⟩
      intro kv hkv
      rcases List.mem_cons.1 hkv with rfl | hmem
      · exact hk
      · exact h3 kv hmem

/-- Every way `EventToEventLogItem` can end, in terms of the renders and the two
`stoul` calls. -/
theorem EventToEventLogItem_result (svc : LogService) (hEvent : EVT_HANDLE)
    (params : List String) :
    (EventToEventLogItem svc hEvent params).1 =
      match (GetEventParam svc hEvent "Event/System/EventID").1,
        (GetEventParam svc hEvent "Event/System/EventRecordID").1,
        (GetEventParam svc hEvent "Event/System/TimeCreated/@SystemTime").1,
        (GetEventParam svc hEvent "Event/System/Channel").1,
        GetEventXML svc hEvent,
        (EventToEventLogItem.properties svc hEvent params []).1 with
      | some idStr, some recordStr, some time, some chan, some rawXML, some properties =>
        match stoul idStr, stoul recordStr with
        | .error e, _ => .error e
        | .ok _, .error e => .error e
        | .ok eventID, .ok eventRecordID =>
          .ok (some ⟨eventID, eventRecordID, time, chan, rawXML, properties⟩)
      | _, _, _, _, _, _ => .ok none := by
  unfold EventToEventLogItem
  dsimp only
  cases (GetEventParam svc hEvent "Event/System/EventID").1 <;>
  cases (GetEventParam svc hEvent "Event/System/EventRecordID").1 <;>
  cases (GetEventParam svc hEvent "Event/System/TimeCreated/@SystemTime").1 <;>
  cases (GetEventParam svc hEvent "Event/System/Channel").1 <;>
  cases GetEventXML svc hEvent <;>
  cases (EventToEventLogItem.properties svc hEvent params []).1 <;>
  try rfl
  rename_i idStr recordStr time chan rawXML properties
  dsimp only
  cases stoul idStr <;> cases stoul recordStr <;> rfl

/-- C1. Event normalization is all-or-nothing: if the render of any of the five
mandatory fields (event ID, record ID, creation time, channel, full XML) or of
any requested extra field path yields empty, the result of
`EventToEventLogItem` is empty; and whenever a record is returned, every one of
those renders produced a value and the record holds all of them: the two parsed
numbers, the time, the channel, the XML, and one property per requested path, in
order, each with the value rendered for it. -/
theorem C1_normalization_all_or_nothing (svc : LogService) (hEvent : EVT_HANDLE)
    (params : List String) :
    (((GetEventParam svc hEvent "Event/System/EventID").1 = none ∨
      (GetEventParam svc hEvent "Event/System/EventRecordID").1 = none ∨
      (GetEventParam svc hEvent "Event/System/TimeCreated/@SystemTime").1 = none ∨
      (GetEventParam svc hEvent "Event/System/Channel").1 = none ∨
      GetEventXML svc hEvent = none ∨
      (∃ key ∈ params, (GetEventParam svc hEvent key).1 = none)) →
        (EventToEventLogItem svc hEvent params).1 = .ok none) ∧
    (∀ item, (EventToEventLogItem svc hEvent params).1 = .ok (some item) →
      (∃ idStr, (GetEventParam svc hEvent "Event/System/EventID").1 = some idStr ∧
        stoul idStr = .ok item.eventID) ∧
      (∃ recordStr, (GetEventParam svc hEvent "Event/System/EventRecordID").1 = some recordStr ∧
        stoul recordStr = .ok item.eventRecordID) ∧
      (GetEventParam svc hEvent "Event/System/TimeCreated/@SystemTime").1
        = some item.timeCreated ∧
      (GetEventParam svc hEvent "Event/System/Channel").1 = some item.channel ∧
      GetEventXML svc hEvent = some item.rawXML ∧
      item.properties.map Prod.fst = params ∧
      ∀ kv ∈ item.properties, (GetEventParam svc hEvent kv.1).1 = some kv.2) := by
  constructor
  · intro h
    rw [EventToEventLogItem_result]
    rcases h with h | h | h | h | h | h
    · rw [h]
    · rw [h]; split <;> simp_all
    · rw [h]; split <;> simp_all
    · rw [h]; split <;> simp_all
    · rw [h]; split <;> simp_all
    · rw [(properties_eq_none svc hEvent params []).2 h]; split <;> simp_all
  · intro item h
    rw [EventToEventLogItem_result] at h
    split at h
    · rename_i idStr recordStr time chan rawXML properties h1 h2 h3 h4 h5 h6
      split at h
      · exact absurd h (by simp)
      · exact absurd h (by simp)
      · rename_i eventID eventRecordID hs1 hs2
        simp only [Except.ok.injEq, Option.some.injEq] at h
        subst h
        obtain ⟨vals, hv1, hv2, hv3⟩ := properties_eq_some svc hEvent params [] _ h6
        simp only [List.nil_append] at hv1
        subst hv1
        exact ⟨⟨idStr, h1, hs1⟩, ⟨recordStr, h2, hs2⟩, h3, h4, h5, hv2, hv3⟩
    · exact absurd h (by simp)

/-- C1 at a concrete event: the sample service renders every field of event 7,
so with the channel path as requested extra a full record comes back, carrying
that property; with a requested path the service cannot render, the result is
empty. -/
theorem C1_normalization_all_or_nothing_witness :
    (EventToEventLogItem serviceUInt16 7 ["Event/System/Channel"]).1
      = .ok (some ⟨7, 7, "2020-01-01T00:00:00Z", "Security", "<Event/>",
          [("Event/System/Channel", "Security")]⟩) ∧
    (GetEventParam serviceUInt16 7 "Event/System/Channel").1 = some "Security" ∧
    (GetEventParam serviceUInt16 7 "Event/Missing").1 = none ∧
    (EventToEventLogItem serviceUInt16 7 ["Event/System/Channel", "Event/Missing"]).1
      = .ok none :=
  ⟨rfl,
    ((C1_normalization_all_or_nothing serviceUInt16 7 ["Event/System/Channel"]).2 _ rfl).2.2.2.1,
    rfl,
    (C1_normalization_all_or_nothing serviceUInt16 7
      ["Event/System/Channel", "Event/Missing"]).1
      (Or.inr (Or.inr (Or.inr (Or.inr (Or.inr ⟨"Event/Missing", by simp, rfl⟩)))))⟩

/-! ### Result Enumerator -/

theorem collect_append (normalize : EVT_HANDLE → Except Exception (Option EventLogItem))
    (xs ys : List EVT_HANDLE) : ∀ results,
    collect normalize (xs ++ ys) results =
      match collect normalize xs results with
      | .error e => .error e
      | .ok rs => collect normalize ys rs := by
  induction xs with
  | nil => intro results; rfl
  | cons h hs ih =>
    intro results
    simp only [List.cons_append, collect]
    cases hn : normalize h with
    | error e => rfl
    | ok found =>
      cases found with
      | none => exact ih results
      | some item => exact ih _

/-- When no normalization throws, `collect` appends the records of the events
that normalized, in order. -/
theorem collect_of_no_throw (normalize : EVT_HANDLE → Except Exception (Option EventLogItem))
    (hs : List EVT_HANDLE) (hok : ∀ h ∈ hs, ∃ found, normalize h = .ok found) : ∀ results,
    collect normalize hs results =
      .ok (results ++ hs.filterMap (fun h =>
        match normalize h with
        | .ok found => found
        | .error _ => none)) := by
  induction hs with
  | nil => intro results; simp [collect]
  | cons h hs ih =>
    intro results
    obtain ⟨found, hf⟩ := hok h (List.mem_cons_self _ _)
    have ih1 := ih (fun x hx => hok x (List.mem_cons_of_mem _ hx))
    cases found with
    | none => simp [collect, hf, ih1, List.filterMap_cons]
    | some item => simp [collect, hf, ih1, List.filterMap_cons]

/-- When the first throwing event of a list throws `e`, `collect` ends with `e`. -/
theorem collect_of_throw (normalize : EVT_HANDLE → Except Exception (Option EventLogItem))
    (pre post : List EVT_HANDLE) (h : EVT_HANDLE) (e : Exception)
    (hpre : ∀ x ∈ pre, ∃ found, normalize x = .ok found) (hthrow : normalize h = .error e)
    (results : List EventLogItem) :
    collect normalize (pre ++ h :: post) results = .error e := by
  rw [collect_append, collect_of_no_throw normalize pre hpre]
  simp [collect, hthrow]

/-- The inner loop reads exactly the fetched batch: started at index
`pre.length` on `pre ++ b ++ tail` with `b.length` iterations to go, its result
is the one `collect` computes on `b`. -/
theorem batch_result (svc : LogService) (params : List String) (b : List EVT_HANDLE) :
    ∀ (pre tail : List EVT_HANDLE) (results : List EventLogItem),
      match (ProcessResults.batch svc params b.length pre.length (pre ++ b ++ tail) results).1 with
      | .error e =>
        collect (fun h => (EventToEventLogItem svc h params).1) b results = .error e
      | .ok out =>
        collect (fun h => (EventToEventLogItem svc h params).1) b results = .ok out.2 := by
  induction b with
  | nil => intro pre tail results; simp [ProcessResults.batch, collect]
  | cons h hs ih =>
    intro pre tail results
    have hget : (pre ++ h :: hs ++ tail).getD pre.length NULL = h := by
      rw [List.getD_eq_getElem?_getD, List.append_assoc,
        List.getElem?_append_right (le_refl _)]
      simp
    have hset : (pre ++ h :: hs ++ tail).set pre.length NULL = (pre ++ [NULL]) ++ hs ++ tail := by
      simp [List.append_assoc, List.set_append_right]
    simp only [List.length_cons, ProcessResults.batch, hget, collect]
    cases hn : (EventToEventLogItem svc h params).1 with
    | error e => simp
    | ok found =>
      have hlen : pre.length + 1 = (pre ++ [NULL]).length := by simp
      cases found with
      | none =>
        simp only [hset, hlen]
        exact ih (pre ++ [NULL]) tail results
      | some item =>
        simp only [hset, hlen]
        exact ih (pre ++ [NULL]) tail (results ++ [item])

/-- The fetch loop computes `collect` over the delivered handles, all batches
joined in delivery order. -/
theorem loop_result (svc : LogService) (hResults : EVT_HANDLE) (params : List String)
    (batches : List (List EVT_HANDLE)) :
    ∀ (hEvents : List EVT_HANDLE) (results : List EventLogItem),
      match (ProcessResults.loop svc hResults params batches hEvents results).1 with
      | .error e =>
        collect (fun h => (EventToEventLogItem svc h params).1) batches.flatten results = .error e
      | .ok out =>
        collect (fun h => (EventToEventLogItem svc h params).1) batches.flatten results
          = .ok out.2 := by
  induction batches with
  | nil => intro hEvents results; simp [ProcessResults.loop, collect]
  | cons b bs ih =>
    intro hEvents results
    have hb := batch_result svc params b [] (hEvents.drop b.length) results
    simp only [List.nil_append, List.length_nil] at hb
    simp only [ProcessResults.loop, List.flatten_cons, collect_append]
    cases hr : (ProcessResults.batch svc params b.length 0 (b ++ List.drop b.length hEvents)
        results).1 with
    | error e =>
      rw [hr] at hb
      simp only at hb
      simp [hb]
    | ok out =>
      rw [hr] at hb
      simp only at hb
      simp only [hb]
      exact ih out.1 out.2

/-- The result of `ProcessResults` is `collect` over every delivered handle. -/
theorem ProcessResults_result (svc : LogService) (hEvents0 : List EVT_HANDLE)
    (hResults : EVT_HANDLE) (filters : List XpathQuery) :
    (ProcessResults svc hEvents0 hResults filters).1 =
      collect (fun h => (EventToEventLogItem svc h (paramsOf filters)).1)
        (svc.EvtNext hResults).batches.flatten [] := by
  have hl := loop_result svc hResults (paramsOf filters) (svc.EvtNext hResults).batches hEvents0 []
  unfold ProcessResults
  simp only [paramsOf] at hl ⊢
  cases hr : (ProcessResults.loop svc hResults
      (List.map XpathQuery.ToString (List.filter (fun query => !query.SearchesByValue) filters))
      (svc.EvtNext hResults).batches hEvents0 []).1 with
  | error e =>
    rw [hr] at hl
    simp only at hl
    simp [hl]
  | ok out =>
    rw [hr] at hl
    simp only at hl
    simp [hl]

/-! ### Numeric parsing -/

theorem digitChar_toNat : ∀ d, d < 10 → (Nat.digitChar d).toNat = 48 + d := by decide

theorem digitsValue_append (xs : List Char) (c : Char) :
    digitsValue (xs ++ [c]) = 10 * digitsValue xs + (c.toNat - 48) := by
  simp [digitsValue, List.foldl_append]

/-- The digits `Nat.toDigitsCore` puts in front of its accumulator are decimal
digits whose value is the number converted. -/
theorem toDigitsCore_digits : ∀ (fuel n : Nat) (ds : List Char), n < fuel →
    ∃ L, Nat.toDigitsCore 10 fuel n ds = L ++ ds ∧ L ≠ [] ∧ (∀ c ∈ L, iswdigit c = true) ∧
      digitsValue L = n := by
  intro fuel
  induction fuel with
  | zero => intro n ds h; omega
  | succ fuel ih =>
    intro n ds h
    have hd : (Nat.digitChar (n % 10)).toNat = 48 + n % 10 :=
      digitChar_toNat _ (Nat.mod_lt _ (by decide))
    have hdig : iswdigit (Nat.digitChar (n % 10)) = true := by
      have := Nat.mod_lt n (show 10 > 0 by decide)
      simp [iswdigit, hd]; omega
    simp only [Nat.toDigitsCore]
    by_cases h0 : n / 10 = 0
    · simp only [h0, if_true]
      refine ⟨[Nat.digitChar (n % 10)], rfl, by simp, by simpa using hdig, ?_⟩
      simp [digitsValue, hd]
      omega
    · simp only [h0, if_false]
      obtain ⟨L, h1, h2, h3, h4⟩ := ih (n / 10) (Nat.digitChar (n % 10) :: ds) (by omega)
      refine ⟨L ++ [Nat.digitChar (n % 10)], by simp [h1], by simp, ?_, ?_⟩
      · intro c hc
        rcases List.mem_append.1 hc with hc | hc
        · exact h3 c hc
        · simp at hc; subst hc; exact hdig
      · rw [digitsValue_append, h4, hd]
        omega

/-- The decimal text of a number is a non-empty run of digits with that value. -/
theorem repr_digits (n : Nat) :
    (Nat.repr n).toList ≠ [] ∧ (∀ c ∈ (Nat.repr n).toList, iswdigit c = true) ∧
      digitsValue (Nat.repr n).toList = n := by
  obtain ⟨L, h1, h2, h3, h4⟩ := toDigitsCore_digits (n + 1) n [] (by omega)
  have hL : (Nat.repr n).toList = L := by
    simp [Nat.repr, Nat.toDigits, h1, List.asString]
  rw [hL]
  exact ⟨h2, h3, h4⟩

theorem dropWhile_of_head (p : Char → Bool) (l : List Char)
    (h : ∀ c, l.head? = some c → p c = false) : l.dropWhile p = l := by
  cases l with
  | nil => rfl
  | cons c t => simp [List.dropWhile_cons, h c rfl]

theorem dropWhile_append_of_all (p : Char → Bool) (ws l : List Char)
    (hws : ∀ c ∈ ws, p c = true) (h : ∀ c, l.head? = some c → p c = false) :
    (ws ++ l).dropWhile p = l := by
  induction ws with
  | nil => exact dropWhile_of_head p l h
  | cons w ws ih =>
    have hw : p w = true := hws w (List.mem_cons_self _ _)
    simp only [List.cons_append, List.dropWhile_cons, hw, if_true]
    exact ih (fun c hc => hws c (List.mem_cons_of_mem _ hc))

theorem takeWhile_append_of_all (p : Char → Bool) (ds rest : List Char)
    (hds : ∀ c ∈ ds, p c = true) (h : ∀ c, rest.head? = some c → p c = false) :
    (ds ++ rest).takeWhile p = ds := by
  induction ds with
  | nil =>
    cases rest with
    | nil => rfl
    | cons c t => simp [List.takeWhile_cons, h c rfl]
  | cons d ds ih =>
    have hd : p d = true := hds d (List.mem_cons_self _ _)
    simp only [List.cons_append, List.takeWhile_cons, hd, if_true]
    rw [ih (fun c hc => hds c (List.mem_cons_of_mem _ hc))]

/-- The computation of `stoul` once white space is dropped. -/
theorem stoul_unfold (str : String) :
    stoul str =
      (let s := str.toList.dropWhile iswspace
       let digits := (match s with
          | c :: rest => if c.toNat = 45 ∨ c.toNat = 43 then rest else s
          | [] => []).takeWhile iswdigit
       if digits = [] then .error .invalid_argument
       else if ULONG_MAX < digitsValue digits then .error .out_of_range
       else .ok (unsignedValue (decide ((s.head?.map Char.toNat) = some 45)) digits)) := by
  unfold stoul unsignedValue
  dsimp only
  split_ifs <;> rfl

/-- What `std::stoul` does with a text, from the way it reads it: no digits
throws `invalid_argument`, a run above `ULONG_MAX` throws `out_of_range`, any
other run is returned as its value. -/
theorem stoul_of_readsAs (text : String) (negative : Bool) (digits : List Char)
    (h : ReadsAs text negative digits) :
    stoul text =
      if digits = [] then .error .invalid_argument
      else if ULONG_MAX < digitsValue digits then .error .out_of_range
      else .ok (unsignedValue negative digits) := by
  obtain ⟨ws, sign, rest, htext, hws, hlen, hsign, hneg, hnosign, hdigits, hrest⟩ := h
  have htake : (digits ++ rest).takeWhile iswdigit = digits :=
    takeWhile_append_of_all iswdigit digits rest hdigits hrest
  rw [stoul_unfold, htext]
  cases sign with
  | nil =>
    have hn : negative = false := by
      cases negative with
      | false => rfl
      | true => obtain ⟨c, hc, _⟩ := hneg.1 rfl; simp at hc
    have hhead := hnosign rfl
    have hdrop : (ws ++ ([] ++ (digits ++ rest))).dropWhile iswspace = digits ++ rest := by
      rw [List.nil_append]
      exact dropWhile_append_of_all iswspace ws _ hws (fun c hc => (hhead c hc).1)
    rw [hdrop]
    cases hl : digits ++ rest with
    | nil =>
      have hd : digits = [] := (List.append_eq_nil.1 hl).1
      subst hd
      simp
    | cons c t =>
      have hc := hhead c (by rw [hl]; rfl)
      have h45 : ¬ c.toNat = 45 := hc.2.2
      have h43 : ¬ c.toNat = 43 := hc.2.1
      rw [hl] at htake
      simp only [h45, h43, or_self, if_false, htake, List.head?_cons, Option.map_some',
        Option.some.injEq, decide_False, hn]
  | cons c t =>
    have ht : t = [] := by
      cases t with
      | nil => rfl
      | cons _ _ => simp at hlen
    subst ht
    have hc := hsign c (List.mem_cons_self _ _)
    have hsp : iswspace c = false := by
      simp [iswspace]; omega
    have hdrop : (ws ++ ([c] ++ (digits ++ rest))).dropWhile iswspace
        = c :: (digits ++ rest) :=
      dropWhile_append_of_all iswspace ws _ hws (fun x hx => by
        have : x = c := (Option.some.inj hx).symm
        rw [this]; exact hsp)
    have hor : c.toNat = 45 ∨ c.toNat = 43 := hc.symm
    have hnegc : negative = decide (c.toNat = 45) := by
      cases negative with
      | true =>
        obtain ⟨x, hx, hx45⟩ := hneg.1 rfl
        rw [List.mem_singleton] at hx
        subst hx
        simp [hx45]
      | false =>
        by_cases h45 : c.toNat = 45
        · have := hneg.2 ⟨c, List.mem_cons_self _ _, h45⟩
          simp at this
        · simp [h45]
    rw [hdrop]
    simp only [hor, if_true, htake, List.head?_cons, Option.map_some', Option.some.injEq, hnegc]

/-- Every text has a reading. -/
theorem exists_readsAs (text : String) : ∃ negative digits, ReadsAs text negative digits := by
  have hsplit : text.toList
      = text.toList.takeWhile iswspace ++ text.toList.dropWhile iswspace :=
    (List.takeWhile_append_dropWhile iswspace text.toList).symm
  have hws : ∀ c ∈ text.toList.takeWhile iswspace, iswspace c = true :=
    fun c hc => List.mem_takeWhile_imp hc
  have hafter : ∀ c, (text.toList.dropWhile iswspace).head? = some c → iswspace c = false := by
    intro c hc
    have := List.head?_dropWhile_not iswspace text.toList
    rw [hc] at this
    exact this
  have hrun : ∀ l : List Char,
      (∀ c ∈ l.takeWhile iswdigit, iswdigit c = true) ∧
      (∀ c, (l.dropWhile iswdigit).head? = some c → iswdigit c = false) := by
    intro l
    refine ⟨fun c hc => List.mem_takeWhile_imp hc, fun c hc => ?_⟩
    have := List.head?_dropWhile_not iswdigit l
    rw [hc] at this
    exact this
  cases hl : text.toList.dropWhile iswspace with
  | nil =>
    refine ⟨false, [], text.toList.takeWhile iswspace, [], [], ?_, hws, by simp, by simp,
      by simp, by simp, by simp, by simp⟩
    rw [hl] at hsplit
    simpa using hsplit
  | cons c t =>
    rw [hl] at hsplit hafter
    by_cases hc : c.toNat = 43 ∨ c.toNat = 45
    · refine ⟨decide (c.toNat = 45), t.takeWhile iswdigit, text.toList.takeWhile iswspace,
        [c], t.dropWhile iswdigit, ?_, hws, by simp, ?_, ?_, by simp, (hrun t).1, (hrun t).2⟩
      · rw [List.takeWhile_append_dropWhile]
        exact hsplit
      · intro x hx
        rw [List.mem_singleton] at hx
        subst hx
        exact hc
      · simp
    · refine ⟨false, (c :: t).takeWhile iswdigit, text.toList.takeWhile iswspace, [],
        (c :: t).dropWhile iswdigit, ?_, hws, by simp, by simp, by simp, ?_,
        (hrun (c :: t)).1, (hrun (c :: t)).2⟩
      · rw [List.takeWhile_append_dropWhile, List.nil_append]
        exact hsplit
      · intro _ x hx
        rw [List.takeWhile_append_dropWhile] at hx
        have hxc : x = c := (Option.some.inj hx).symm
        subst hxc
        refine ⟨hafter x rfl, fun h43 => hc (Or.inl h43), fun h45 => hc (Or.inr h45)⟩

/-- A decimal text followed by characters that do not start with a digit reads
as the digits of the number, without sign. -/
theorem readsAs_repr_append (n : Nat) (tail : String)
    (htail : ∀ c, tail.toList.head? = some c → iswdigit c = false) :
    ReadsAs (Nat.repr n ++ tail) false (Nat.repr n).toList := by
  obtain ⟨hne, hdig, _⟩ := repr_digits n
  refine ⟨[], [], tail.toList, ?_, by simp, by simp, by simp, by simp, ?_, hdig, htail⟩
  · simp [String.toList, String.data_append]
  · intro _ c hc
    obtain ⟨d, ds, hd⟩ := List.exists_cons_of_ne_nil hne
    rw [hd] at hc
    have hcd : c = d := (Option.some.inj hc).symm
    have hdd : iswdigit d = true := hdig d (by rw [hd]; exact List.mem_cons_self _ _)
    subst hcd
    have hb : 48 ≤ c.toNat ∧ c.toNat ≤ 57 := by simpa [iswdigit] using hdd
    refine ⟨by simp [iswspace]; omega, by omega, by omega⟩

/-! ### Enumeration: order, exceptions, handle releases -/

/-- Rendering does not depend on the fetch behaviour of the service. -/
theorem GetEventParam_setNext (svc : LogService) (f : EVT_HANDLE → ResultSet)
    (hEvent : EVT_HANDLE) (param : String) :
    GetEventParam { svc with EvtNext := f } hEvent param = GetEventParam svc hEvent param := rfl

theorem GetEventXML_setNext (svc : LogService) (f : EVT_HANDLE → ResultSet)
    (hEvent : EVT_HANDLE) :
    GetEventXML { svc with EvtNext := f } hEvent = GetEventXML svc hEvent := rfl

theorem properties_setNext (svc : LogService) (f : EVT_HANDLE → ResultSet)
    (hEvent : EVT_HANDLE) (params : List String) : ∀ acc,
    EventToEventLogItem.properties { svc with EvtNext := f } hEvent params acc
      = EventToEventLogItem.properties svc hEvent params acc := by
  induction params with
  | nil => intro acc; rfl
  | cons key rest ih =>
    intro acc
    simp only [EventToEventLogItem.properties, GetEventParam_setNext, ih]

/-- Normalization does not depend on the fetch behaviour of the service. -/
theorem EventToEventLogItem_setNext (svc : LogService) (f : EVT_HANDLE → ResultSet)
    (hEvent : EVT_HANDLE) (params : List String) :
    EventToEventLogItem { svc with EvtNext := f } hEvent params
      = EventToEventLogItem svc hEvent params := by
  simp only [EventToEventLogItem, GetEventParam_setNext, GetEventXML_setNext, properties_setNext]

/-- C2 fails as stated: with event 7 (event ID text `"NULL"`) and the healthy
event 8 in one batch, the records of the events whose normalization succeeded
are `[record of 8]`, but `ProcessResults` returns no sequence at all: the
exception thrown by `std::stoul` for event 7 leaves the function. -/
theorem C2_counterexample :
    [7, 8].filterMap (recordOf serviceNullID (paramsOf [])) = [sampleRecord 8] ∧
    (ProcessResults serviceNullID nullSlots 900 []).1 = .error .invalid_argument ∧
    ¬ (ProcessResults serviceNullID nullSlots 900 []).1 =
        .ok ((serviceNullID.EvtNext 900).batches.flatten.filterMap
          (recordOf serviceNullID (paramsOf []))) := by
  refine ⟨rfl, rfl, ?_⟩
  rw [show (ProcessResults serviceNullID nullSlots 900 []).1 = .error .invalid_argument from rfl]
  exact fun h => Except.noConfusion h

/-- C2, amended. For every result set in which no event's normalization throws,
the sequence `ProcessResults` returns is exactly the records of the events whose
normalization succeeded, in the order the service delivered them across all
batches fetched before the first failing fetch call (events that normalize to
empty are skipped); and the same sequence is returned whatever error code the
failing fetch call reports. -/
theorem C2_results_in_delivery_order (svc : LogService) (hEvents0 : List EVT_HANDLE)
    (hResults : EVT_HANDLE) (filters : List XpathQuery)
    (hno : ∀ h ∈ (svc.EvtNext hResults).batches.flatten,
      ∃ found, (EventToEventLogItem svc h (paramsOf filters)).1 = .ok found) :
    (ProcessResults svc hEvents0 hResults filters).1 =
      .ok ((svc.EvtNext hResults).batches.flatten.filterMap (recordOf svc (paramsOf filters))) ∧
    ∀ err : Nat,
      (ProcessResults { svc with EvtNext := fun h => ⟨(svc.EvtNext h).batches, err⟩ }
        hEvents0 hResults filters).1 =
      .ok ((svc.EvtNext hResults).batches.flatten.filterMap (recordOf svc (paramsOf filters))) := by
  have key : collect (fun h => (EventToEventLogItem svc h (paramsOf filters)).1)
      (svc.EvtNext hResults).batches.flatten [] =
      .ok ((svc.EvtNext hResults).batches.flatten.filterMap (recordOf svc (paramsOf filters))) := by
    rw [collect_of_no_throw _ _ hno]
    rfl
  refine ⟨by rw [ProcessResults_result, key], fun err => ?_⟩
  rw [ProcessResults_result]
  simp only [EventToEventLogItem_setNext]
  exact key

/-- C2 amended, at a concrete result set: two batches, a fetch loop ended by
error code 5 instead of "no more items"; the records come back in delivery
order. -/
theorem C2_results_in_delivery_order_witness :
    (∀ h ∈ ((serviceGood [[3, 1], [2]] 5).EvtNext 900).batches.flatten,
      ∃ found, (EventToEventLogItem (serviceGood [[3, 1], [2]] 5) h (paramsOf [])).1
        = .ok found) ∧
    (ProcessResults (serviceGood [[3, 1], [2]] 5) nullSlots 900 []).1 =
      .ok [sampleRecord 3, sampleRecord 1, sampleRecord 2] :=
  have hno : ∀ h ∈ ((serviceGood [[3, 1], [2]] 5).EvtNext 900).batches.flatten,
      ∃ found, (EventToEventLogItem (serviceGood [[3, 1], [2]] 5) h (paramsOf [])).1
        = .ok found := by
    intro h hh
    have hmem : h ∈ [3, 1, 2] := hh
    simp only [List.mem_cons, List.mem_singleton, List.not_mem_nil, or_false] at hmem
    rcases hmem with rfl | rfl | rfl <;> exact ⟨_, rfl⟩
  ⟨hno, (C2_results_in_delivery_order (serviceGood [[3, 1], [2]] 5) nullSlots 900 [] hno).1⟩

/-- C8 fails as stated: event 7's record ID renders as `"Unknown VARIANT: 8"`,
a numeric-parse failure; the later event 8 normalizes to a record, yet
`ProcessResults` does not return that record: the exception aborts the
enumeration and the batch holding event 8 is never fetched (`EvtNext` is called
once). -/
theorem C8_counterexample :
    (GetEventParam serviceUInt32Record 7 "Event/System/EventRecordID").1
      = some "Unknown VARIANT: 8" ∧
    (EventToEventLogItem serviceUInt32Record 8 (paramsOf [])).1 = .ok (some (sampleRecord 8)) ∧
    (ProcessResults serviceUInt32Record nullSlots 900 []).1 = .error .invalid_argument ∧
    ¬ (ProcessResults serviceUInt32Record nullSlots 900 []).1 = .ok [sampleRecord 8] ∧
    (ProcessResults serviceUInt32Record nullSlots 900 []).2.count
      (Effect.EvtNext 900 ARRAY_SIZE INFINITE) = 1 := by
  refine ⟨rfl, rfl, rfl, ?_, by decide⟩
  rw [show (ProcessResults serviceUInt32Record nullSlots 900 []).1
    = .error .invalid_argument from rfl]
  exact fun h => Except.noConfusion h

/-- C8, amended. A render failure never aborts the enumeration, a numeric-parse
failure does.  Let `h` be a delivered event with no throwing event before it.
If the normalization of `h` yields empty (an unrenderable field) and no later
event throws, `ProcessResults` returns the records of all other events that
normalize, earlier and later ones, in order: only `h` is dropped.  If the
normalization of `h` throws (a numeric-parse failure on the event ID or record
ID text), `ProcessResults` throws that exception. -/
theorem C8_render_failures_are_local (svc : LogService) (hEvents0 : List EVT_HANDLE)
    (hResults : EVT_HANDLE) (filters : List XpathQuery) (pre post : List EVT_HANDLE)
    (h : EVT_HANDLE)
    (hsplit : (svc.EvtNext hResults).batches.flatten = pre ++ h :: post)
    (hpre : ∀ x ∈ pre, ∃ found, (EventToEventLogItem svc x (paramsOf filters)).1 = .ok found) :
    ((EventToEventLogItem svc h (paramsOf filters)).1 = .ok none →
      (∀ x ∈ post, ∃ found, (EventToEventLogItem svc x (paramsOf filters)).1 = .ok found) →
      (ProcessResults svc hEvents0 hResults filters).1 =
        .ok (pre.filterMap (recordOf svc (paramsOf filters))
          ++ post.filterMap (recordOf svc (paramsOf filters)))) ∧
    (∀ e, (EventToEventLogItem svc h (paramsOf filters)).1 = .error e →
      (ProcessResults svc hEvents0 hResults filters).1 = .error e) := by
  constructor
  · intro hnone hpost
    have hall : ∀ x ∈ pre ++ h :: post,
        ∃ found, (EventToEventLogItem svc x (paramsOf filters)).1 = .ok found := by
      intro x hx
      rcases List.mem_append.1 hx with hx | hx
      · exact hpre x hx
      · rcases List.mem_cons.1 hx with rfl | hx
        · exact ⟨none, hnone⟩
        · exact hpost x hx
    rw [ProcessResults_result, hsplit, collect_of_no_throw _ _ hall]
    have hdrop : recordOf svc (paramsOf filters) h = none := by
      simp [recordOf, hnone]
    have hfm : (pre ++ h :: post).filterMap (recordOf svc (paramsOf filters)) =
        pre.filterMap (recordOf svc (paramsOf filters))
          ++ post.filterMap (recordOf svc (paramsOf filters)) := by
      rw [List.filterMap_append, List.filterMap_cons, hdrop]
    simp only [List.nil_append]
    exact congrArg Except.ok hfm
  · intro e he
    rw [ProcessResults_result, hsplit]
    exact collect_of_throw _ pre post h e hpre he []

/-- C8 amended, at a concrete result set: the XML of event 2 does not render,
so event 2 is dropped and the events 1 and 3 around it are returned. -/
theorem C8_render_failures_are_local_witness :
    (serviceXmlFails.EvtNext 900).batches.flatten = [1] ++ 2 :: [3] ∧
    (EventToEventLogItem serviceXmlFails 2 (paramsOf [])).1 = .ok none ∧
    (ProcessResults serviceXmlFails nullSlots 900 []).1
      = .ok [sampleRecord 1, sampleRecord 3] :=
  ⟨rfl, rfl,
    (C8_render_failures_are_local serviceXmlFails nullSlots 900 [] [1] [3] 2 rfl
      (by intro x hx; rw [List.mem_singleton] at hx; subst hx; exact ⟨_, rfl⟩)).1 rfl
      (by intro x hx; rw [List.mem_singleton] at hx; subst hx; exact ⟨_, rfl⟩)⟩

/-- C3, as the code behaves. (1) A result set delivering the single event 7
into null slots: the handle is released twice, once by the temporary guard of
the call on line 88 and once by `EvtClose` on line 93.  (2) The same result
set when the uninitialised array happens to hold the value 7 in slot 1: the
cleanup loop calls `EvtClose(7)` again, two explicit closes.  (3) A batch
holding event 7, whose normalization throws, and event 8: `ProcessResults`
throws and handle 8 is never released. -/
theorem C3_handles_not_released_exactly_once :
    releasesOf 7 (ProcessResults (serviceGood [[7]] ERROR_NO_MORE_ITEMS) nullSlots 900 []).2 = 2 ∧
    (ProcessResults (serviceGood [[7]] ERROR_NO_MORE_ITEMS) [0, 7, 0, 0, 0, 0, 0, 0, 0, 0]
      900 []).2.count (Effect.EvtClose 7) = 2 ∧
    (ProcessResults serviceNullID nullSlots 900 []).1 = .error .invalid_argument ∧
    releasesOf 8 (ProcessResults serviceNullID nullSlots 900 []).2 = 0 := by
  refine ⟨by decide, by decide, rfl, by decide⟩

/-! ### Numeric parsing in the normalizer -/

/-- C9 fails as stated, in both halves.  The event ID text `"12abc"` is not a
decimal number, yet normalization returns a record, with event ID 12, and no
error.  The record ID text `"5000000000"`, rendered from a 64-bit unsigned
value, is a decimal number and every field renders, yet no record holds its
value: normalization throws `out_of_range`. -/
theorem C9_counterexample :
    ((GetEventParam serviceTextID 7 "Event/System/EventID").1 = some "12abc" ∧
      (EventToEventLogItem serviceTextID 7 []).1 =
        .ok (some ⟨12, 7, "2020-01-01T00:00:00Z", "Security", "<Event/>", []⟩) ∧
      ¬ ∃ e, (EventToEventLogItem serviceTextID 7 []).1 = .error e) ∧
    ((GetEventParam serviceBigRecord 7 "Event/System/EventID").1 = some "4625" ∧
      (GetEventParam serviceBigRecord 7 "Event/System/EventRecordID").1
        = some (Nat.repr 5000000000) ∧
      (EventToEventLogItem serviceBigRecord 7 []).1 = .error .out_of_range ∧
      ¬ ∃ item, (EventToEventLogItem serviceBigRecord 7 []).1 = .ok (some item)) := by
  refine ⟨⟨rfl, rfl, ?_⟩, ⟨rfl, rfl, rfl, ?_⟩⟩
  · rintro ⟨e, he⟩
    rw [show (EventToEventLogItem serviceTextID 7 []).1 =
      .ok (some ⟨12, 7, "2020-01-01T00:00:00Z", "Security", "<Event/>", []⟩) from rfl] at he
    exact Except.noConfusion he
  · rintro ⟨item, he⟩
    rw [show (EventToEventLogItem serviceBigRecord 7 []).1 = .error .out_of_range from rfl] at he
    exact Except.noConfusion he

/-- C9, amended. For every event whose mandatory and extra fields all render,
the outcome of normalization is fixed by how `std::stoul` reads the event ID
text and then the record ID text (white space, at most one sign, the longest run
of digits; what follows the run is ignored), and every text has such a reading.
(1) If the run of the event ID text is empty, normalization throws
`invalid_argument`; else if its value exceeds `ULONG_MAX`, it throws
`out_of_range`; else the same two checks apply to the record ID text; else a
record is returned whose `eventID` and `eventRecordID` are the values of the two
runs (negated in `unsigned long` after a minus sign).  (2) Every text has a
reading.  (3) When the two texts are the decimal texts of numbers `n` and `m`,
each possibly followed by characters that do not start with a digit (as in
`"12abc"`): the record holds `n` and `m` when both are at most `ULONG_MAX`, and
normalization throws `out_of_range` when one of them is larger.  (4) The texts
`"NULL"`, `"Unknown VARIANT: N"`, `"#12"`, `"-"`, `" "` and `""` have an empty
run, so each of them makes normalization throw. -/
theorem C9_numeric_parsing (svc : LogService) (hEvent : EVT_HANDLE) (params : List String)
    (idStr recordStr : String)
    (hid : (GetEventParam svc hEvent "Event/System/EventID").1 = some idStr)
    (hrec : (GetEventParam svc hEvent "Event/System/EventRecordID").1 = some recordStr)
    (htime : (GetEventParam svc hEvent "Event/System/TimeCreated/@SystemTime").1 ≠ none)
    (hchan : (GetEventParam svc hEvent "Event/System/Channel").1 ≠ none)
    (hxml : GetEventXML svc hEvent ≠ none)
    (hextra : ∀ key ∈ params, (GetEventParam svc hEvent key).1 ≠ none) :
    (∀ negI dsI negR dsR, ReadsAs idStr negI dsI → ReadsAs recordStr negR dsR →
      (dsI = [] → (EventToEventLogItem svc hEvent params).1 = .error .invalid_argument) ∧
      (dsI ≠ [] → ULONG_MAX < digitsValue dsI →
        (EventToEventLogItem svc hEvent params).1 = .error .out_of_range) ∧
      (dsI ≠ [] → digitsValue dsI ≤ ULONG_MAX → dsR = [] →
        (EventToEventLogItem svc hEvent params).1 = .error .invalid_argument) ∧
      (dsI ≠ [] → digitsValue dsI ≤ ULONG_MAX → dsR ≠ [] → ULONG_MAX < digitsValue dsR →
        (EventToEventLogItem svc hEvent params).1 = .error .out_of_range) ∧
      (dsI ≠ [] → digitsValue dsI ≤ ULONG_MAX → dsR ≠ [] → digitsValue dsR ≤ ULONG_MAX →
        ∃ item, (EventToEventLogItem svc hEvent params).1 = .ok (some item) ∧
          item.eventID = unsignedValue negI dsI ∧
          item.eventRecordID = unsignedValue negR dsR)) ∧
    (∀ text, ∃ negative digits, ReadsAs text negative digits) ∧
    (∀ n m tailI tailR, idStr = Nat.repr n ++ tailI → recordStr = Nat.repr m ++ tailR →
      (∀ c, tailI.toList.head? = some c → iswdigit c = false) →
      (∀ c, tailR.toList.head? = some c → iswdigit c = false) →
      (n ≤ ULONG_MAX → m ≤ ULONG_MAX →
        ∃ item, (EventToEventLogItem svc hEvent params).1 = .ok (some item) ∧
          item.eventID = n ∧ item.eventRecordID = m) ∧
      (ULONG_MAX < n ∨ ULONG_MAX < m →
        (EventToEventLogItem svc hEvent params).1 = .error .out_of_range)) ∧
    (∀ N, ReadsAs "NULL" false [] ∧ ReadsAs ("Unknown VARIANT: " ++ Nat.repr N) false [] ∧
      ReadsAs "#12" false [] ∧ ReadsAs "-" true [] ∧ ReadsAs " " false [] ∧
      ReadsAs "" false []) := by
  obtain ⟨time, ht⟩ := Option.ne_none_iff_exists'.1 htime
  obtain ⟨chan, hc⟩ := Option.ne_none_iff_exists'.1 hchan
  obtain ⟨rawXML, hx⟩ := Option.ne_none_iff_exists'.1 hxml
  have hprops : (EventToEventLogItem.properties svc hEvent params []).1 ≠ none := by
    intro hnone
    obtain ⟨key, hk, hkn⟩ := (properties_eq_none svc hEvent params []).1 hnone
    exact hextra key hk hkn
  obtain ⟨properties, hp⟩ := Option.ne_none_iff_exists'.1 hprops
  have hres := EventToEventLogItem_result svc hEvent params
  rw [hid, hrec, ht, hc, hx, hp] at hres
  simp only at hres
  have main : ∀ negI dsI negR dsR, ReadsAs idStr negI dsI → ReadsAs recordStr negR dsR →
      (dsI = [] → (EventToEventLogItem svc hEvent params).1 = .error .invalid_argument) ∧
      (dsI ≠ [] → ULONG_MAX < digitsValue dsI →
        (EventToEventLogItem svc hEvent params).1 = .error .out_of_range) ∧
      (dsI ≠ [] → digitsValue dsI ≤ ULONG_MAX → dsR = [] →
        (EventToEventLogItem svc hEvent params).1 = .error .invalid_argument) ∧
      (dsI ≠ [] → digitsValue dsI ≤ ULONG_MAX → dsR ≠ [] → ULONG_MAX < digitsValue dsR →
        (EventToEventLogItem svc hEvent params).1 = .error .out_of_range) ∧
      (dsI ≠ [] → digitsValue dsI ≤ ULONG_MAX → dsR ≠ [] → digitsValue dsR ≤ ULONG_MAX →
        ∃ item, (EventToEventLogItem svc hEvent params).1 = .ok (some item) ∧
          item.eventID = unsignedValue negI dsI ∧
          item.eventRecordID = unsignedValue negR dsR) := by
    intro negI dsI negR dsR hI hR
    have hsI := stoul_of_readsAs idStr negI dsI hI
    have hsR := stoul_of_readsAs recordStr negR dsR hR
    refine ⟨?_, ?_, ?_, ?_, ?_⟩
    · intro h0
      rw [hsI, if_pos h0] at hres
      cases hs : stoul recordStr <;> rw [hs] at hres <;> exact hres
    · intro h0 h1
      rw [hsI, if_neg h0, if_pos h1] at hres
      cases hs : stoul recordStr <;> rw [hs] at hres <;> exact hres
    · intro h0 h1 h2
      rw [hsI, if_neg h0, if_neg (Nat.not_lt.2 h1), hsR, if_pos h2] at hres
      exact hres
    · intro h0 h1 h2 h3
      rw [hsI, if_neg h0, if_neg (Nat.not_lt.2 h1), hsR, if_neg h2, if_pos h3] at hres
      exact hres
    · intro h0 h1 h2 h3
      rw [hsI, if_neg h0, if_neg (Nat.not_lt.2 h1), hsR, if_neg h2,
        if_neg (Nat.not_lt.2 h3)] at hres
      exact ⟨_, hres, rfl, rfl⟩
  refine ⟨main, exists_readsAs, ?_, ?_⟩
  · intro n m tailI tailR hn hm htI htR
    obtain ⟨hneI, _, hvI⟩ := repr_digits n
    obtain ⟨hneR, _, hvR⟩ := repr_digits m
    have hI : ReadsAs idStr false (Nat.repr n).toList := by
      rw [hn]; exact readsAs_repr_append n tailI htI
    have hR : ReadsAs recordStr false (Nat.repr m).toList := by
      rw [hm]; exact readsAs_repr_append m tailR htR
    obtain ⟨_, m2, _, m4, m5⟩ := main _ _ _ _ hI hR
    rw [hvI] at m2 m4 m5
    rw [hvR] at m4 m5
    constructor
    · intro hnle hmle
      obtain ⟨item, h1, h2, h3⟩ := m5 hneI hnle hneR hmle
      refine ⟨item, h1, ?_, ?_⟩
      · rw [h2]; exact hvI
      · rw [h3]; exact hvR
    · intro hbig
      by_cases hnle : n ≤ ULONG_MAX
      · rcases hbig with hbig | hbig
        · omega
        · exact m4 hneI hnle hneR hbig
      · exact m2 hneI (Nat.lt_of_not_le hnle)
  · intro N
    refine ⟨?_, ?_, ?_, ?_, ?_, ?_⟩
    · exact ⟨[], [], "NULL".toList, rfl, by simp, by simp, by simp, by simp, by decide,
        by simp, by decide⟩
    · refine ⟨[], [], ("Unknown VARIANT: " ++ Nat.repr N).toList, rfl, by simp, by simp,
        by simp, by simp, ?_, by simp, ?_⟩
      · intro _ c hc
        have h2 : ([] ++ ("Unknown VARIANT: " ++ Nat.repr N).toList).head?
            = some (Char.ofNat 85) := by
          rw [List.nil_append, String.toList, String.data_append]
          rfl
        rw [h2] at hc
        have : c = Char.ofNat 85 := (Option.some.inj hc).symm
        subst this
        decide
      · intro c hc
        have h2 : ("Unknown VARIANT: " ++ Nat.repr N).toList.head? = some (Char.ofNat 85) := by
          rw [String.toList, String.data_append]
          rfl
        rw [h2] at hc
        have : c = Char.ofNat 85 := (Option.some.inj hc).symm
        subst this
        decide
    · exact ⟨[], [], "#12".toList, rfl, by simp, by simp, by simp, by simp, by decide,
        by simp, by decide⟩
    · exact ⟨[], "-".toList, [], rfl, by simp, by decide, by decide, by decide, by decide,
        by simp, by simp⟩
    · exact ⟨" ".toList, [], [], rfl, by decide, by simp, by simp, by simp, by simp,
        by simp, by simp⟩
    · exact ⟨[], [], [], rfl, by simp, by simp, by simp, by simp, by simp, by simp, by simp⟩

/-- C9 amended, at concrete events.  Event ID text `"12abc"` with record ID text
`"7"`: both runs are within range and the record holds 12 and 7.  Event ID text
`"4625"` with record ID text `"5000000000"`: normalization throws
`out_of_range`. -/
theorem C9_numeric_parsing_witness :
    ((GetEventParam serviceTextID 7 "Event/System/EventID").1 = some (Nat.repr 12 ++ "abc") ∧
      (GetEventParam serviceTextID 7 "Event/System/EventRecordID").1
        = some (Nat.repr 7 ++ "") ∧
      ∃ item, (EventToEventLogItem serviceTextID 7 []).1 = .ok (some item) ∧
        item.eventID = 12 ∧ item.eventRecordID = 7) ∧
    (EventToEventLogItem serviceBigRecord 7 []).1 = .error .out_of_range :=
  ⟨⟨rfl, rfl,
    ((C9_numeric_parsing serviceTextID 7 [] (Nat.repr 12 ++ "abc") (Nat.repr 7 ++ "") rfl rfl
      (by decide) (by decide) (by decide) (by simp)).2.2.1 12 7 "abc" "" rfl rfl
      (by decide) (by decide)).1 (by decide) (by decide)⟩,
    ((C9_numeric_parsing serviceBigRecord 7 [] (Nat.repr 4625 ++ "") (Nat.repr 5000000000 ++ "")
      rfl rfl (by decide) (by decide) (by decide) (by simp)).2.2.1 4625 5000000000 "" "" rfl rfl
      (by decide) (by decide)).2 (Or.inr (by decide))⟩

/-! ### Query Engine and Subscription Engine -/

theorem foldl_append_eq_join (l : List String) : ∀ acc : String,
    l.foldl (fun r s => r ++ s) acc = acc ++ String.join l := by
  induction l with
  | nil => intro acc; simp [String.join]
  | cons x rest ih =>
    intro acc
    have hj : String.join (x :: rest) = x ++ String.join rest := by
      simp only [String.join, List.foldl_cons, String.empty_append] at ih ⊢
      rw [ih x]
    rw [List.foldl_cons, ih, hj, String.append_assoc]

/-- The loop that both entry points use builds the filter expression the
specification describes. -/
theorem query_loop_eq_spec (id : Nat) (filters : List XpathQuery) :
    filters.foldl (fun query param => query ++ (" and " ++ param.ToString))
      ("Event/System[EventID=" ++ to_wstring id ++ "]") = FilterExpression_spec id filters := by
  have h := foldl_append_eq_join (filters.map (fun p => " and " ++ p.ToString))
    ("Event/System[EventID=" ++ to_wstring id ++ "]")
  rw [List.foldl_map] at h
  exact h

/-- Rendering opens no query and no subscription. -/
theorem GetEventParam_effects_not_open (svc : LogService) (hEvent : EVT_HANDLE) (param : String) :
    ∀ e ∈ (GetEventParam svc hEvent param).2, e.isOpen = false := by
  intro e he
  unfold GetEventParam at he
  by_cases hctx : (svc.EvtCreateRenderContext param).handle = NULL
  · simp only [hctx, if_true, List.mem_singleton] at he
    subst he
    rfl
  · simp only [hctx, if_false, EventWrapper.destroy, List.mem_singleton] at he
    subst he
    rfl

theorem properties_effects_not_open (svc : LogService) (hEvent : EVT_HANDLE)
    (params : List String) : ∀ acc,
    ∀ e ∈ (EventToEventLogItem.properties svc hEvent params acc).2, e.isOpen = false := by
  induction params with
  | nil => intro acc e he; simp [EventToEventLogItem.properties] at he
  | cons key rest ih =>
    intro acc e he
    unfold EventToEventLogItem.properties at he
    cases hk : (GetEventParam svc hEvent key).1 with
    | none =>
      simp only [hk] at he
      exact GetEventParam_effects_not_open svc hEvent key e he
    | some v =>
      simp only [hk, List.mem_append] at he
      rcases he with he | he
      · exact GetEventParam_effects_not_open svc hEvent key e he
      · exact ih _ e he

theorem EventToEventLogItem_effects_not_open (svc : LogService) (hEvent : EVT_HANDLE)
    (params : List String) :
    ∀ e ∈ (EventToEventLogItem svc hEvent params).2, e.isOpen = false := by
  intro e he
  have hsub : ∀ x ∈ (EventToEventLogItem svc hEvent params).2,
      x ∈ (GetEventParam svc hEvent "Event/System/EventID").2 ++
        (GetEventParam svc hEvent "Event/System/EventRecordID").2 ++
        (GetEventParam svc hEvent "Event/System/TimeCreated/@SystemTime").2 ++
        (GetEventParam svc hEvent "Event/System/Channel").2 ++
        (EventToEventLogItem.properties svc hEvent params []).2 := by
    intro x hx
    unfold EventToEventLogItem at hx
    dsimp only at hx
    repeat' split at hx
    all_goals simp only [List.mem_append] at hx ⊢
    all_goals tauto
  have hmem := hsub e he
  simp only [List.mem_append] at hmem
  rcases hmem with (((hm | hm) | hm) | hm) | hm
  · exact GetEventParam_effects_not_open _ _ _ e hm
  · exact GetEventParam_effects_not_open _ _ _ e hm
  · exact GetEventParam_effects_not_open _ _ _ e hm
  · exact GetEventParam_effects_not_open _ _ _ e hm
  · exact properties_effects_not_open _ _ _ _ e hm

theorem batch_effects_not_open (svc : LogService) (params : List String) :
    ∀ (n i : Nat) (hEvents : List EVT_HANDLE) (results : List EventLogItem),
      ∀ e ∈ (ProcessResults.batch svc params n i hEvents results).2, e.isOpen = false := by
  intro n
  induction n with
  | zero => intro i hEvents results e he; simp [ProcessResults.batch] at he
  | succ n ih =>
    intro i hEvents results e he
    unfold ProcessResults.batch at he
    dsimp only at he
    have hguard : ∀ x ∈ EventWrapper.destroy (hEvents.getD i NULL), x.isOpen = false := by
      intro x hx
      unfold EventWrapper.destroy at hx
      split_ifs at hx
      · simp at hx
      · simp only [List.mem_singleton] at hx
        subst hx
        rfl
    split at he
    · simp only [List.mem_append] at he
      rcases he with he | he
      · exact EventToEventLogItem_effects_not_open _ _ _ e he
      · exact hguard e he
    · simp only [List.mem_append, List.mem_singleton] at he
      rcases he with ((he | he) | he) | he
      · exact EventToEventLogItem_effects_not_open _ _ _ e he
      · exact hguard e he
      · subst he; rfl
      · exact ih _ _ _ e he

theorem loop_effects_not_open (svc : LogService) (hResults : EVT_HANDLE) (params : List String)
    (batches : List (List EVT_HANDLE)) :
    ∀ (hEvents : List EVT_HANDLE) (results : List EventLogItem),
      ∀ e ∈ (ProcessResults.loop svc hResults params batches hEvents results).2,
        e.isOpen = false := by
  induction batches with
  | nil =>
    intro hEvents results e he
    simp only [ProcessResults.loop, List.mem_singleton] at he
    subst he
    rfl
  | cons b bs ih =>
    intro hEvents results e he
    unfold ProcessResults.loop at he
    dsimp only at he
    split at he
    · simp only [List.mem_cons] at he
      rcases he with he | he
      · subst he; rfl
      · exact batch_effects_not_open _ _ _ _ _ _ e he
    · simp only [List.mem_cons, List.mem_append] at he
      rcases he with (he | he) | he
      · subst he; rfl
      · exact batch_effects_not_open _ _ _ _ _ _ e he
      · exact ih _ _ e he

theorem cleanup_effects_not_open (svc : LogService) (slots : List EVT_HANDLE) :
    ∀ lastError, ∀ e ∈ (ProcessResults.cleanup svc slots lastError).2, e.isOpen = false := by
  induction slots with
  | nil => intro lastError e he; simp [ProcessResults.cleanup] at he
  | cons h hs ih =>
    intro lastError e he
    unfold ProcessResults.cleanup at he
    split_ifs at he
    · exact ih _ e he
    · simp only [List.mem_cons] at he
      rcases he with he | he
      · subst he; rfl
      · exact ih _ e he

/-- The Result Enumerator opens no query and no subscription. -/
theorem ProcessResults_effects_not_open (svc : LogService) (hEvents0 : List EVT_HANDLE)
    (hResults : EVT_HANDLE) (filters : List XpathQuery) :
    ∀ e ∈ (ProcessResults svc hEvents0 hResults filters).2, e.isOpen = false := by
  intro e he
  unfold ProcessResults at he
  dsimp only at he
  split at he
  · exact loop_effects_not_open _ _ _ _ _ _ e he
  · simp only [List.mem_append] at he
    rcases he with (he | he) | he
    · exact loop_effects_not_open _ _ _ _ _ _ e he
    · exact cleanup_effects_not_open _ _ _ e he
    · split_ifs at he
      · simp only [List.mem_singleton] at he
        subst he
        rfl
      · simp at he

/-- C4. For every event ID and predicate list, `QueryEvents` makes exactly one
native query call, as its first effect, and the expression it passes is
`Event/System[EventID=<decimal event ID>]` followed, for each predicate in list
order, by ` and ` and the serialized form of the predicate; `SubscribeToEvent`,
given the same event ID and predicates, makes exactly one native subscribe call
and passes the identical expression. -/
theorem C4_filter_expression {κ : Type} (svc : LogService) (hEvents0 : List EVT_HANDLE)
    (channel : String) (id : Nat) (filters : List XpathQuery)
    (subscriptions : List (EventSubscription κ)) (pwsPath : String) (callback : κ) :
    (QueryEvents svc hEvents0 channel id filters).2.head? =
      some (Effect.EvtQuery channel (FilterExpression_spec id filters)
        (EvtQueryChannelPath ||| EvtQueryReverseDirection)) ∧
    (QueryEvents svc hEvents0 channel id filters).2.filter Effect.isOpen =
      [Effect.EvtQuery channel (FilterExpression_spec id filters)
        (EvtQueryChannelPath ||| EvtQueryReverseDirection)] ∧
    (SubscribeToEvent svc subscriptions pwsPath id callback filters).2.filter Effect.isOpen =
      [Effect.EvtSubscribe pwsPath (FilterExpression_spec id filters)
        subscriptions.length EvtSubscribeToFutureEvents] := by
  have hq := query_loop_eq_spec id filters
  refine ⟨?_, ?_, ?_⟩
  · unfold QueryEvents
    simp only [hq]
    split_ifs <;> rfl
  · unfold QueryEvents
    simp only [hq]
    split_ifs
    · rfl
    · rfl
    · rfl
    · have h1 := ProcessResults_effects_not_open svc hEvents0
        (svc.EvtQuery channel (FilterExpression_spec id filters)
          (EvtQueryChannelPath ||| EvtQueryReverseDirection)).handle filters
      have h2 : ∀ e ∈ EventWrapper.destroy
          (svc.EvtQuery channel (FilterExpression_spec id filters)
            (EvtQueryChannelPath ||| EvtQueryReverseDirection)).handle, e.isOpen = false := by
        intro x hx
        unfold EventWrapper.destroy at hx
        split_ifs at hx
        simp only [List.mem_singleton] at hx
        subst hx
        rfl
      simp only [List.filter_cons, Effect.isOpen, if_true, List.filter_append]
      rw [List.filter_eq_nil_iff.2 (fun e he => by simp [h1 e he]),
        List.filter_eq_nil_iff.2 (fun e he => by simp [h2 e he])]
      rfl
  · unfold SubscribeToEvent
    simp only [hq, List.length_append, List.length_singleton, Nat.add_sub_cancel]
    split_ifs <;> rfl

/-- C5. When opening the historical query fails (the native query call returns
no handle), `QueryEvents` returns the empty sequence and its effects are exactly
the native query call followed by one error message — "channel was not found"
for that error code, "query … is not valid" for the invalid-query code, "EvtQuery
failed with <code>" otherwise; in particular no batch is fetched: the Result
Enumerator is not invoked. -/
theorem C5_query_open_failure (svc : LogService) (hEvents0 : List EVT_HANDLE)
    (channel : String) (id : Nat) (filters : List XpathQuery)
    (hfail : (svc.EvtQuery channel (FilterExpression_spec id filters)
      (EvtQueryChannelPath ||| EvtQueryReverseDirection)).handle = NULL) :
    (QueryEvents svc hEvents0 channel id filters).1 = .ok [] ∧
    (∃ msg, (QueryEvents svc hEvents0 channel id filters).2 =
      [Effect.EvtQuery channel (FilterExpression_spec id filters)
          (EvtQueryChannelPath ||| EvtQueryReverseDirection),
        Effect.LOG_ERROR msg] ∧
      msg =
        if (svc.EvtQuery channel (FilterExpression_spec id filters)
            (EvtQueryChannelPath ||| EvtQueryReverseDirection)).lastError
            = ERROR_EVT_CHANNEL_NOT_FOUND then
          "EventLogs::QueryEvents: The channel was not found."
        else if (svc.EvtQuery channel (FilterExpression_spec id filters)
            (EvtQueryChannelPath ||| EvtQueryReverseDirection)).lastError
            = ERROR_EVT_INVALID_QUERY then
          "EventLogs::QueryEvents: The query " ++ FilterExpression_spec id filters
            ++ " is not valid."
        else
          "EventLogs::QueryEvents: EvtQuery failed with "
            ++ Nat.repr (svc.EvtQuery channel (FilterExpression_spec id filters)
              (EvtQueryChannelPath ||| EvtQueryReverseDirection)).lastError) ∧
    (∀ h size timeout,
      Effect.EvtNext h size timeout ∉ (QueryEvents svc hEvents0 channel id filters).2) := by
  have hq := query_loop_eq_spec id filters
  unfold QueryEvents
  simp only [hq, hfail, if_true]
  split_ifs with h1 h2
  · exact ⟨rfl, ⟨_, rfl, rfl⟩, by simp⟩
  · exact ⟨rfl, ⟨_, rfl, rfl⟩, by simp⟩
  · exact ⟨rfl, ⟨_, rfl, rfl⟩, by simp⟩

/-- C5 at the concrete call `query("Security", 4625, [])` against a service
reporting channel-not-found: one error message, empty result. -/
theorem C5_query_open_failure_witness :
    (serviceNoChannel.EvtQuery "Security" (FilterExpression_spec 4625 [])
      (EvtQueryChannelPath ||| EvtQueryReverseDirection)).handle = NULL ∧
    (QueryEvents serviceNoChannel nullSlots "Security" 4625 []).1 = .ok [] ∧
    (QueryEvents serviceNoChannel nullSlots "Security" 4625 []).2 =
      [Effect.EvtQuery "Security" "Event/System[EventID=4625]" 513,
        Effect.LOG_ERROR "EventLogs::QueryEvents: The channel was not found."] :=
  ⟨rfl, (C5_query_open_failure serviceNoChannel nullSlots "Security" 4625 [] rfl).1, by decide⟩

theorem setSubHandle_last {κ : Type} (h : EVT_HANDLE) (entry : EventSubscription κ) :
    ∀ subscriptions : List (EventSubscription κ),
      setSubHandle h subscriptions.length (subscriptions ++ [entry])
        = subscriptions ++ [{ entry with hSubscription := h }] := by
  intro subscriptions
  induction subscriptions with
  | nil => rfl
  | cons s rest ih => simp [setSubHandle, ih]

/-- C6. For every subscribe call, with `h` the handle the native subscribe call
returned (null when it returned none): the registry afterwards is the registry
before with exactly one entry appended, holding the given callback and `h` — on
success and on failure alike, earlier entries unchanged; the call returns empty
exactly when `h` is null, and otherwise returns the reference to the new last
entry. -/
theorem C6_subscribe_registry {κ : Type} (svc : LogService)
    (subscriptions : List (EventSubscription κ)) (pwsPath : String) (id : Nat) (callback : κ)
    (filters : List XpathQuery) :
    (SubscribeToEvent svc subscriptions pwsPath id callback filters).1.2 =
      subscriptions ++ [⟨callback,
        (svc.EvtSubscribe pwsPath (FilterExpression_spec id filters) subscriptions.length
          EvtSubscribeToFutureEvents).handle⟩] ∧
    ((SubscribeToEvent svc subscriptions pwsPath id callback filters).1.1 = none ↔
      (svc.EvtSubscribe pwsPath (FilterExpression_spec id filters) subscriptions.length
        EvtSubscribeToFutureEvents).handle = NULL) ∧
    ((SubscribeToEvent svc subscriptions pwsPath id callback filters).1.1 =
      if (svc.EvtSubscribe pwsPath (FilterExpression_spec id filters) subscriptions.length
        EvtSubscribeToFutureEvents).handle = NULL then none else some subscriptions.length) ∧
    (SubscribeToEvent svc subscriptions pwsPath id callback filters).1.2[subscriptions.length]? =
      some ⟨callback,
        (svc.EvtSubscribe pwsPath (FilterExpression_spec id filters) subscriptions.length
          EvtSubscribeToFutureEvents).handle⟩ ∧
    (SubscribeToEvent svc subscriptions pwsPath id callback filters).1.2.length
      = subscriptions.length + 1 := by
  have hq := query_loop_eq_spec id filters
  have hreg : (SubscribeToEvent svc subscriptions pwsPath id callback filters).1.2 =
      subscriptions ++ [⟨callback,
        (svc.EvtSubscribe pwsPath (FilterExpression_spec id filters) subscriptions.length
          EvtSubscribeToFutureEvents).handle⟩] := by
    unfold SubscribeToEvent
    simp only [hq, List.length_append, List.length_singleton, Nat.add_sub_cancel,
      setSubHandle_last]
    split_ifs <;> rfl
  have hret : (SubscribeToEvent svc subscriptions pwsPath id callback filters).1.1 =
      if (svc.EvtSubscribe pwsPath (FilterExpression_spec id filters) subscriptions.length
        EvtSubscribeToFutureEvents).handle = NULL then none else some subscriptions.length := by
    unfold SubscribeToEvent
    simp only [hq, List.length_append, List.length_singleton, Nat.add_sub_cancel]
    split_ifs <;> rfl
  refine ⟨hreg, ?_, hret, ?_, ?_⟩
  · rw [hret]
    split_ifs with h <;> simp [h]
  · rw [hreg]
    simp
  · rw [hreg]
    simp

end EventLogs
